import Mathlib

/-!
Shallow embedding of the NFT transfer listener subsystem of the
renaiss-bid-bot-extension repository (src/nft-listener.js, src/ws-config.js,
src/service-worker.js).

The JavaScript class `NFTListener` is modelled as a state record
(`ListenerState`) together with the ws-config module state (`PoolState`).
Each async method becomes a pure function from the state plus an environment
record (network outcomes supplied by the outside world) to a new state and a
trace of externally visible actions (`Effect`).  The asynchronous interleaving
of the single-threaded extension is modelled by treating each externally
triggered entry point (message handler call, poll timer tick, reconnect timer
firing) as one atomic step; the not-awaited immediate `pollForTransfers()`
call made by `startPolling` is therefore represented as a separate poll tick
step rather than inlined.
-/

namespace RenaissNFT

/-- `connectionStatus` values used by nft-listener.js:
'connected', 'disconnected', 'connecting', 'failed'. -/
inductive ConnStatus
  | disconnected
  | connecting
  | connected
  | failed
deriving DecidableEq, Repr

/-- The `lastTransferEvent` record built by `onTransferDetected`.
Addresses and token ids are modelled as naturals, the ISO timestamp as a
natural supplied by the environment. -/
structure TransferRecord where
  tokenId : Nat
  fromAddr : Nat
  toAddr : Nat
  timestamp : Nat
  url : String
deriving DecidableEq, Repr

/-- The status object written to `chrome.storage.local` under key
'nft-listener-status' by `updateStorageStatus`. -/
structure StatusSnapshot where
  connectionStatus : ConnStatus
  activeEndpoint : Option String
  lastTransferEvent : Option TransferRecord
  connectionTimestamp : Option Nat
  listeningTabsCount : Nat
  isListening : Bool
deriving DecidableEq, Repr

/-- The ethers provider handle: `WebSocketProvider` or `JsonRpcProvider`. -/
inductive ProviderHandle
  | ws (endpoint : String)
  | http (endpoint : String)
deriving DecidableEq, Repr

/-- Externally visible actions of the listener:
`publishStatus` is the `chrome.storage.local.set` in `updateStorageStatus`;
`createWS`/`createHTTP` are the `new ethers.WebSocketProvider` /
`new ethers.JsonRpcProvider` constructions; `destroyCalled` is the
`provider.destroy()` call; `waitedForClose` is the resolution of the bounded
close-wait promise (confirmed close or 3s timeout); `providerReleased` marks
`this.provider = null`; `transferDetected` marks pollForTransfers reaching the
'*** TRANSFER EVENT DETECTED ***' point for an admitted event, i.e. the
invocation of `onTransferDetected`; `sendAttempt` is a
`chrome.tabs.sendMessage` call; `scheduleTimer` is the `setTimeout` in
`scheduleReconnect`. -/
inductive Effect
  | publishStatus (snap : StatusSnapshot)
  | createWS (endpoint : String)
  | createHTTP (endpoint : String)
  | destroyCalled
  | waitedForClose (confirmed : Bool)
  | providerReleased
  | transferDetected (txHash logIndex : Nat)
  | sendAttempt (tabId tokenId : Nat)
  | scheduleTimer (delayMs : Nat)
deriving DecidableEq, Repr

/-- ws-config.js module state: the `WS_ENDPOINTS` pool with its cursor and the
`RPC_POOL` endpoints with their cursor. -/
structure PoolState where
  pools : List String
  poolsIdx : Nat
  rpcs : List String
  rpcsIdx : Nat
deriving DecidableEq, Repr

/-- ws-config.js `getNextWsEndpoint`: round-robin over the WS pool; `none`
when no WebSocket endpoints are configured. -/
def getNextWsEndpoint (p : PoolState) : Option String × PoolState :=
  if p.pools.length = 0 then (none, p)
  else (some (p.pools.getD p.poolsIdx ""),
        { p with poolsIdx := (p.poolsIdx + 1) % p.pools.length })

/-- ws-config.js `getNextRpcEndpoint`: round-robin over the RPC pool (the
configuration invariant requires the pool to be non-empty; the empty case is
totalised with ""). -/
def getNextRpcEndpoint (p : PoolState) : String × PoolState :=
  if p.rpcs.length = 0 then ("", p)
  else (p.rpcs.getD p.rpcsIdx "",
        { p with rpcsIdx := (p.rpcsIdx + 1) % p.rpcs.length })

/-- ws-config.js `getFallbackRpcEndpoint` (uses the pool). -/
def getFallbackRpcEndpoint (p : PoolState) : String × PoolState :=
  getNextRpcEndpoint p

/-- The mutable fields of the `NFTListener` class instance.
`contract` records whether `this.contract` is set; the dedup `Set` is a list
in insertion order (JS `Set` preserves insertion order, and
`Array.from(set).slice(-500)` keeps the most recently inserted 500 keys); an
event key `${txHash}-${logIndex}` is the pair (txHash, logIndex);
`pollIntervalHandle` records whether the poll interval is live;
`reconnectTimeout` holds the delay of the pending (not yet fired) reconnect
timer. -/
structure ListenerState where
  provider : Option ProviderHandle := none
  contract : Bool := false
  isListening : Bool := false
  tabs : List Nat := []
  connectionStatus : ConnStatus := ConnStatus.disconnected
  activeEndpoint : Option String := none
  lastTransferEvent : Option TransferRecord := none
  connectionTimestamp : Option Nat := none
  pollIntervalHandle : Bool := false
  lastProcessedBlock : Option Nat := none
  processedTxHashesForDeduplication : List (Nat × Nat) := []
  reconnectTimeout : Option Nat := none
  reconnectAttempts : Nat := 0
deriving DecidableEq, Repr

def maxReconnectAttempts : Nat := 20
def baseReconnectDelay : Nat := 2000
def blockPollIntervalMs : Nat := 3000

/-- Combined state: ws-config.js module state plus the listener instance. -/
structure World where
  pool : PoolState
  l : ListenerState
deriving DecidableEq, Repr

/-- The snapshot assembled by `updateStorageStatus` from the current state. -/
def snapshotOf (l : ListenerState) : StatusSnapshot :=
  { connectionStatus := l.connectionStatus
    activeEndpoint := l.activeEndpoint
    lastTransferEvent := l.lastTransferEvent
    connectionTimestamp := l.connectionTimestamp
    listeningTabsCount := l.tabs.length
    isListening := l.isListening }

/-- `updateStorageStatus`: writes the current snapshot to the external store. -/
def updateStorageStatus (l : ListenerState) : List Effect :=
  [Effect.publishStatus (snapshotOf l)]

/-- Network outcomes consumed by one `initializeProvider` call:
whether `getNetwork()` succeeds on the WebSocket provider, whether it succeeds
on the HTTP fallback provider, and the current time. -/
structure InitEnv where
  wsNetworkOk : Bool
  httpNetworkOk : Bool
  now : Nat

/-- Result of a method that returns a success boolean. -/
structure Res where
  w : World
  eff : List Effect
  ok : Bool

/-- The HTTP-fallback tail of `initializeProvider` (from the
`const rpcEndpoint = getFallbackRpcEndpoint()` line onward, including the
outer catch that fires when the HTTP provider's `getNetwork()` throws).
Note: the incoming `l.provider` (a just-created WebSocket provider whose
network test failed, when one exists) is overwritten, not destroyed. -/
def initializeProviderFallback (pool : PoolState) (l : ListenerState)
    (eff : List Effect) (env : InitEnv) : Res :=
  let rpcEndpoint := (getFallbackRpcEndpoint pool).1
  let pool2 := (getFallbackRpcEndpoint pool).2
  let l1 := { l with provider := some (ProviderHandle.http rpcEndpoint) }
  let eff1 := eff ++ [Effect.createHTTP rpcEndpoint]
  if env.httpNetworkOk then
    let l2 := { l1 with connectionStatus := ConnStatus.connected,
                        activeEndpoint := some (rpcEndpoint ++ " (HTTP Fallback)"),
                        connectionTimestamp := some env.now }
    ⟨⟨pool2, l2⟩, eff1 ++ updateStorageStatus l2, true⟩
  else
    let l2 := { l1 with connectionStatus := ConnStatus.failed,
                        activeEndpoint := none }
    ⟨⟨pool2, l2⟩, eff1 ++ updateStorageStatus l2, false⟩

/-- `initializeProvider`: set status to connecting and publish, try the next
WebSocket endpoint (create provider, test `getNetwork()`); on success set
connected and publish; on WebSocket failure or absence fall back to HTTP. -/
def initializeProvider (w : World) (env : InitEnv) : Res :=
  let l0 := { w.l with connectionStatus := ConnStatus.connecting }
  let eff0 := updateStorageStatus l0
  match (getNextWsEndpoint w.pool).1 with
  | some wsEp =>
      let pool1 := (getNextWsEndpoint w.pool).2
      let l1 := { l0 with provider := some (ProviderHandle.ws wsEp) }
      let eff1 := eff0 ++ [Effect.createWS wsEp]
      if env.wsNetworkOk then
        let l2 := { l1 with connectionStatus := ConnStatus.connected,
                            activeEndpoint := some wsEp,
                            connectionTimestamp := some env.now }
        ⟨⟨pool1, l2⟩, eff1 ++ updateStorageStatus l2, true⟩
      else
        initializeProviderFallback pool1 l1 eff1 env
  | none =>
      initializeProviderFallback (getNextWsEndpoint w.pool).2 l0 eff0 env

/-- `isProviderHealthy`: null provider is unhealthy; for a WebSocket provider
a readyState other than OPEN (1) is unhealthy; otherwise the result of the
`getNetwork()` round-trip decides. -/
def isProviderHealthy (l : ListenerState) (wsReadyState : Nat)
    (networkOk : Bool) : Bool :=
  match l.provider with
  | none => false
  | some (ProviderHandle.ws _) => if wsReadyState ≠ 1 then false else networkOk
  | some (ProviderHandle.http _) => networkOk

/-- `destroyProvider`: no provider means nothing to do.  For a WebSocket
provider: readyState CLOSED (3) just nulls the references; otherwise
`provider.destroy()` is called and the bounded close-wait (close event or 3s
timeout) is awaited before the references are nulled.  For an HTTP provider
the `_websocket` block is skipped and the references are nulled directly. -/
def destroyProvider (w : World) (wsReadyState : Nat) (closeConfirmed : Bool) :
    World × List Effect :=
  match w.l.provider with
  | none => (w, [])
  | some (ProviderHandle.ws _) =>
      if wsReadyState = 3 then
        (⟨w.pool, { w.l with provider := none, contract := false }⟩,
          [Effect.providerReleased])
      else
        (⟨w.pool, { w.l with provider := none, contract := false }⟩,
          [Effect.destroyCalled, Effect.waitedForClose closeConfirmed,
            Effect.providerReleased])
  | some (ProviderHandle.http _) =>
      (⟨w.pool, { w.l with provider := none, contract := false }⟩,
        [Effect.providerReleased])

/-- The URL placed in `lastTransferEvent`. -/
def transferUrl (tokenId : Nat) : String :=
  "https://www.renaiss.xyz/card/" ++ toString tokenId

/-- The broadcast loop of `onTransferDetected`: iterate over the snapshot of
the tab set, attempt `chrome.tabs.sendMessage` for each tab, and delete a tab
from the live set when its delivery throws. -/
def sendLoopGo (deliver : Nat → Bool) (tokenId : Nat) :
    List Nat → List Nat → List Nat × List Effect
  | [], cur => (cur, [])
  | t :: rest, cur =>
      let cur1 := if deliver t then cur else cur.erase t
      let r := sendLoopGo deliver tokenId rest cur1
      (r.1, Effect.sendAttempt t tokenId :: r.2)

/-- `onTransferDetected`: a null/undefined tokenId returns immediately;
otherwise record `lastTransferEvent`, publish the snapshot, and broadcast to
all listening tabs, pruning tabs whose delivery fails. -/
def onTransferDetected (w : World) (fromAddr toAddr : Nat)
    (tokenId : Option Nat) (now : Nat) (deliver : Nat → Bool) :
    World × List Effect :=
  match tokenId with
  | none => (w, [])
  | some tok =>
      let rec1 : TransferRecord := ⟨tok, fromAddr, toAddr, now, transferUrl tok⟩
      let l1 := { w.l with lastTransferEvent := some rec1 }
      let eff1 := updateStorageStatus l1
      if l1.tabs.length > 0 then
        let r := sendLoopGo deliver tok l1.tabs l1.tabs
        (⟨w.pool, { l1 with tabs := r.1 }⟩, eff1 ++ r.2)
      else
        (⟨w.pool, l1⟩, eff1)

/-- One decoded log entry as produced by `queryFilter`. -/
structure TransferEvent where
  transactionHash : Nat
  index : Nat
  blockNumber : Nat
  argFrom : Nat
  argTo : Nat
  argTokenId : Option Nat
deriving DecidableEq, Repr

/-- The dedup key `${txHash}-${logIndex}`. -/
def eventKey (ev : TransferEvent) : Nat × Nat := (ev.transactionHash, ev.index)

/-- `scheduleReconnect`: nothing when no tab is registered; when the attempt
budget is exhausted set status to failed and publish; otherwise increment the
attempt counter, compute the exponential-backoff delay capped at 60s, replace
any pending timer, and schedule. -/
def scheduleReconnect (w : World) : World × List Effect :=
  if w.l.tabs.isEmpty then (w, [])
  else if maxReconnectAttempts ≤ w.l.reconnectAttempts then
    let l1 := { w.l with connectionStatus := ConnStatus.failed }
    (⟨w.pool, l1⟩, updateStorageStatus l1)
  else
    let attempts := w.l.reconnectAttempts + 1
    let delay := min (baseReconnectDelay * 2 ^ (attempts - 1)) 60000
    (⟨w.pool, { w.l with reconnectAttempts := attempts,
                         reconnectTimeout := some delay }⟩,
      [Effect.scheduleTimer delay])

/-- The overflow handling of the dedup set: when more than 1000 keys are
held, `Array.from(set).slice(-500)` keeps only the most recently inserted
500. -/
def trimDedup (d : List (Nat × Nat)) : List (Nat × Nat) :=
  if 1000 < d.length then d.drop (d.length - 500) else d

/-- The body of the `for (const event of events)` loop in
`pollForTransfers`: skip an identity already in the dedup set; otherwise add
it, trim the set when it exceeds 1000 keys, and dispatch the event through
`onTransferDetected`. -/
def dedupStep (deliver : TransferEvent → Nat → Bool) (now : Nat) (w : World)
    (ev : TransferEvent) : World × List Effect :=
  if w.l.processedTxHashesForDeduplication.contains (eventKey ev) then (w, [])
  else
    let d2 := trimDedup (w.l.processedTxHashesForDeduplication ++ [eventKey ev])
    let w1 : World := ⟨w.pool, { w.l with processedTxHashesForDeduplication := d2 }⟩
    let r := onTransferDetected w1 ev.argFrom ev.argTo ev.argTokenId now (deliver ev)
    (r.1, Effect.transferDetected ev.transactionHash ev.index :: r.2)

/-- The whole event loop of one poll. -/
def processEvents (deliver : TransferEvent → Nat → Bool) (now : Nat) :
    World → List TransferEvent → World × List Effect
  | w, [] => (w, [])
  | w, ev :: rest =>
      let r1 := dedupStep deliver now w ev
      let r2 := processEvents deliver now r1.1 rest
      (r2.1, r1.2 ++ r2.2)

/-- Outcome of one `pollForTransfers` call supplied by the environment:
either some awaited call throws (with the error message's network/connection
classification), or the chain head, clock, decoded events of the range
`[cursor+1, head]` and the delivery outcomes are returned. -/
inductive PollEnv
  | fail (networkClass : Bool)
  | ok (head : Nat) (now : Nat) (events : List TransferEvent)
       (deliver : TransferEvent → Nat → Bool)

/-- `pollForTransfers`: skip when provider or contract is missing; on a
network/connection-class error stop polling, demote `isListening`, and
schedule a reconnect when tabs remain (any other error only logs); otherwise
return early when the head has not advanced past the cursor, else process the
range's events through the dedup loop and advance the cursor to the head.
`currentBlock <= this.lastProcessedBlock` with a null cursor coerces null to
0, modelled by `Option.getD 0`. -/
def pollForTransfers (w : World) (pe : PollEnv) : World × List Effect :=
  if w.l.provider.isNone || !w.l.contract then (w, [])
  else
    match pe with
    | PollEnv.fail networkClass =>
        if networkClass then
          let l1 := { w.l with isListening := false, pollIntervalHandle := false }
          if l1.tabs.isEmpty then (⟨w.pool, l1⟩, [])
          else scheduleReconnect ⟨w.pool, l1⟩
        else (w, [])
    | PollEnv.ok head now events deliver =>
        if head ≤ w.l.lastProcessedBlock.getD 0 then (w, [])
        else
          let r := processEvents deliver now w events
          (⟨r.1.pool, { r.1.l with lastProcessedBlock := some head }⟩, r.2)

/-- Environment of one `startListening` call: readyState/network outcome for
the health check, readyState and close confirmation for provider disposal,
the `initializeProvider` outcomes, and the `getBlockNumber()` result (`none`
models a throw). -/
structure StartEnv where
  healthWsReadyState : Nat
  healthNetworkOk : Bool
  destroyWsReadyState : Nat
  closeConfirmed : Bool
  wsNetworkOk : Bool
  httpNetworkOk : Bool
  now : Nat
  headBlock : Option Nat

/-- The catch block of `startListening`: clear `isListening`, destroy the
provider for a clean reconnection, and schedule a reconnect when tabs
remain. -/
def startListeningFail (w : World) (env : StartEnv) : Res :=
  let l1 := { w.l with isListening := false }
  let r2 := destroyProvider ⟨w.pool, l1⟩ env.destroyWsReadyState env.closeConfirmed
  if r2.1.l.tabs.isEmpty then ⟨r2.1, r2.2, false⟩
  else
    let r3 := scheduleReconnect r2.1
    ⟨r3.1, r2.2 ++ r3.2, false⟩

/-- The tail of `startListening` run once a (healthy or freshly initialized)
provider is available: create the contract instance, read the current block
into the cursor, start polling, and set `isListening`.  A
`getBlockNumber()` throw lands in the catch block.  The
not-awaited immediate poll made by `startPolling` is a separate tick step. -/
def startListeningConnected (w : World) (eff : List Effect) (env : StartEnv) : Res :=
  let l2 := { w.l with contract := true }
  match env.headBlock with
  | none =>
      let rf := startListeningFail ⟨w.pool, l2⟩ env
      ⟨rf.w, eff ++ rf.eff, false⟩
  | some head =>
      ⟨⟨w.pool, { l2 with lastProcessedBlock := some head,
                          pollIntervalHandle := true,
                          isListening := true }⟩, eff, true⟩

/-- `startListening`: an already-listening listener returns true immediately;
otherwise the provider health is checked, an unhealthy provider is destroyed
and reinitialized (a failed initialization throws into the catch block), and
the connected tail runs. -/
def startListening (w : World) (env : StartEnv) : Res :=
  if w.l.isListening then ⟨w, [], true⟩
  else
    if isProviderHealthy w.l env.healthWsReadyState env.healthNetworkOk then
      startListeningConnected w [] env
    else
      let rd := destroyProvider w env.destroyWsReadyState env.closeConfirmed
      let ri := initializeProvider rd.1 ⟨env.wsNetworkOk, env.httpNetworkOk, env.now⟩
      if ri.ok then startListeningConnected ri.w (rd.2 ++ ri.eff) env
      else
        let rf := startListeningFail ri.w env
        ⟨rf.w, rd.2 ++ ri.eff ++ rf.eff, false⟩

/-- The reconnect timer callback: consume the pending timer, re-run
`startListening`; reset the attempt counter on success, reschedule on
failure.  A timer that has been cleared (no pending timer) never fires. -/
def fireReconnect (w : World) (env : StartEnv) : World × List Effect :=
  match w.l.reconnectTimeout with
  | none => (w, [])
  | some _ =>
      let w0 : World := ⟨w.pool, { w.l with reconnectTimeout := none }⟩
      let r := startListening w0 env
      if r.ok then (⟨r.w.pool, { r.w.l with reconnectAttempts := 0 }⟩, r.eff)
      else
        let r2 := scheduleReconnect r.w
        (r2.1, r.eff ++ r2.2)

/-- `stopListening`: stop polling, clear `isListening`, set status to
disconnected and publish, cancel a pending reconnect timer, and destroy the
provider. -/
def stopListening (w : World) (wsReadyState : Nat) (closeConfirmed : Bool) :
    World × List Effect :=
  let l1 := { w.l with pollIntervalHandle := false, isListening := false,
                       connectionStatus := ConnStatus.disconnected }
  let eff1 := updateStorageStatus l1
  let l2 := { l1 with reconnectTimeout := none }
  let r := destroyProvider ⟨w.pool, l2⟩ wsReadyState closeConfirmed
  (r.1, eff1 ++ r.2)

/-- `registerTab`: idempotent add to the tab set (JS `Set.add`). -/
def registerTab (w : World) (tabId : Nat) : World :=
  if w.l.tabs.contains tabId then w
  else ⟨w.pool, { w.l with tabs := w.l.tabs ++ [tabId] }⟩

/-- `unregisterTab`: remove from the tab set (JS `Set.delete`). -/
def unregisterTab (w : World) (tabId : Nat) : World :=
  ⟨w.pool, { w.l with tabs := w.l.tabs.erase tabId }⟩

/-- `hasActiveTabs`. -/
def hasActiveTabs (w : World) : Bool := !w.l.tabs.isEmpty

/-- The service worker's 'start-nft-listening' handler: register the sender
tab, then start listening when not already active. -/
def swRegister (w : World) (tabId : Nat) (env : StartEnv) : World × List Effect :=
  let w1 := registerTab w tabId
  if w1.l.isListening then (w1, [])
  else
    let r := startListening w1 env
    (r.w, r.eff)

/-- The service worker's 'stop-nft-listening' handler (also the
`tabs.onRemoved` cleanup): unregister the tab, and stop listening when no
tabs remain. -/
def swUnregister (w : World) (tabId : Nat) (wsReadyState : Nat)
    (closeConfirmed : Bool) : World × List Effect :=
  let w1 := unregisterTab w tabId
  if hasActiveTabs w1 then (w1, [])
  else stopListening w1 wsReadyState closeConfirmed

/-- One register/unregister request arriving at the service worker. -/
inductive SWOp
  | register (tabId : Nat) (env : StartEnv)
  | unregister (tabId : Nat) (wsReadyState : Nat) (closeConfirmed : Bool)

/-- The service worker handler extended with a ghost flag recording the
result of the most recent connection/start attempt (`false` before any
attempt). -/
def swStepG (g : World × Bool) (op : SWOp) : World × Bool :=
  match op with
  | SWOp.register tabId env =>
      let w1 := registerTab g.1 tabId
      if w1.l.isListening then (w1, g.2)
      else
        let r := startListening w1 env
        (r.w, r.ok)
  | SWOp.unregister tabId rs cc => ((swUnregister g.1 tabId rs cc).1, g.2)

/-- One automatic (not user-triggered) step: a poll timer tick or the
reconnect timer firing. -/
inductive AutoStep
  | tick (pe : PollEnv)
  | fire (env : StartEnv)

def autoStep (w : World) (st : AutoStep) : World × List Effect :=
  match st with
  | AutoStep.tick pe => pollForTransfers w pe
  | AutoStep.fire env => fireReconnect w env

def runAuto : World → List AutoStep → World × List Effect
  | w, [] => (w, [])
  | w, st :: rest =>
      let r1 := autoStep w st
      let r2 := runAuto r1.1 rest
      (r2.1, r1.2 ++ r2.2)

/-- Effect classifiers and counters used in the statements. -/
def isTimerEffect : Effect → Bool
  | Effect.scheduleTimer _ => true
  | _ => false

def isPublishEffect : Effect → Bool
  | Effect.publishStatus _ => true
  | _ => false

def isCreateEffect : Effect → Bool
  | Effect.createWS _ => true
  | Effect.createHTTP _ => true
  | _ => false

/-- Number of dispatches (onTransferDetected invocations) of the identity
`k = (txHash, logIndex)` in a trace. -/
def countDetected (k : Nat × Nat) (effs : List Effect) : Nat :=
  effs.countP (fun e =>
    match e with
    | Effect.transferDetected h i => h == k.1 && i == k.2
    | _ => false)

/-- Number of delivery attempts addressed to a given tab in a trace. -/
def countSendTo (tabId : Nat) (effs : List Effect) : Nat :=
  effs.countP (fun e =>
    match e with
    | Effect.sendAttempt t _ => t == tabId
    | _ => false)

/-- Scans a trace: `true` when a provider is created while a previously
created provider has not been released. -/
def createWhileHeld : List Effect → Bool → Bool
  | [], _ => false
  | e :: rest, held =>
      match e with
      | Effect.createWS _ => held || createWhileHeld rest true
      | Effect.createHTTP _ => held || createWhileHeld rest true
      | Effect.providerReleased => createWhileHeld rest false
      | _ => createWhileHeld rest held

/-- `true` when a provider-creating effect occurs before the first release of
the previously held provider. -/
def createBeforeRelease : List Effect → Bool
  | [] => false
  | e :: rest =>
      match e with
      | Effect.createWS _ => true
      | Effect.createHTTP _ => true
      | Effect.providerReleased => false
      | _ => createBeforeRelease rest

/-- The endpoint configuration shipped in ws-config.js. -/
def initialPool : PoolState :=
  ⟨["wss://bsc-rpc.publicnode.com", "wss://bsc.drpc.org",
    "wss://bsc.callstaticrpc.com"], 0,
   ["https://bsc-mainnet.public.blastapi.io", "https://binance.llamarpc.com",
    "https://bsc.rpc.blxrbdn.com", "https://api.zan.top/bsc-mainnet",
    "https://bsc-dataseed.binance.org/"], 0⟩

/-- The module-load state: fresh pool cursors and the `NFTListener`
constructor's field values. -/
def initWorld : World := ⟨initialPool, {}⟩

/-! ### Frame lemmas -/

theorem destroyProvider_l (w : World) (rs : Nat) (cc : Bool) :
    (destroyProvider w rs cc).1.l =
      { w.l with provider := none,
                 contract := !w.l.provider.isSome && w.l.contract } := by
  obtain ⟨pool, l⟩ := w
  rcases hp : l.provider with _ | p
  · simp only [destroyProvider, hp]
    cases l
    simp_all
  · cases p <;> simp only [destroyProvider, hp] <;>
      first
      | (split <;> simp_all)
      | simp_all

theorem destroyProvider_pool (w : World) (rs : Nat) (cc : Bool) :
    (destroyProvider w rs cc).1.pool = w.pool := by
  rcases hp : w.l.provider with _ | p
  · simp only [destroyProvider, hp]
  · cases p <;> simp only [destroyProvider, hp] <;> split <;> rfl

theorem scheduleReconnect_l (w : World) :
    (scheduleReconnect w).1.l =
      { w.l with
          connectionStatus :=
            if !w.l.tabs.isEmpty ∧ maxReconnectAttempts ≤ w.l.reconnectAttempts
            then ConnStatus.failed else w.l.connectionStatus,
          reconnectAttempts :=
            if !w.l.tabs.isEmpty ∧ w.l.reconnectAttempts < maxReconnectAttempts
            then w.l.reconnectAttempts + 1 else w.l.reconnectAttempts,
          reconnectTimeout :=
            if !w.l.tabs.isEmpty ∧ w.l.reconnectAttempts < maxReconnectAttempts
            then some (min (baseReconnectDelay * 2 ^ (w.l.reconnectAttempts + 1 - 1)) 60000)
            else w.l.reconnectTimeout } := by
  obtain ⟨pool, l⟩ := w
  obtain ⟨f1, f2, f3, tabs, f5, f6, f7, f8, f9, f10, f11, f12, ratt⟩ := l
  unfold scheduleReconnect
  by_cases hE : tabs.isEmpty
  · simp [hE]
  · by_cases hA : maxReconnectAttempts ≤ ratt
    · simp [hE, hA, Nat.not_lt.mpr hA]
    · simp [hE, hA, Nat.not_le.mp hA]

theorem scheduleReconnect_pool (w : World) :
    (scheduleReconnect w).1.pool = w.pool := by
  unfold scheduleReconnect
  split
  · rfl
  · split <;> rfl

theorem scheduleReconnect_noTimer (w : World)
    (h : maxReconnectAttempts ≤ w.l.reconnectAttempts) :
    (scheduleReconnect w).2.countP isTimerEffect = 0 := by
  unfold scheduleReconnect
  by_cases hE : w.l.tabs.isEmpty
  · rw [if_pos hE]
    rfl
  · rw [if_neg hE, if_pos h]
    rfl

theorem initializeProvider_tabs (w : World) (env : InitEnv) :
    (initializeProvider w env).w.l.tabs = w.l.tabs := by
  unfold initializeProvider initializeProviderFallback
  cases hw : (getNextWsEndpoint w.pool).1 with
  | none =>
      dsimp only
      split <;> rfl
  | some wsEp =>
      dsimp only
      split
      · rfl
      · split <;> rfl

theorem initializeProvider_isListening (w : World) (env : InitEnv) :
    (initializeProvider w env).w.l.isListening = w.l.isListening := by
  unfold initializeProvider initializeProviderFallback
  cases hw : (getNextWsEndpoint w.pool).1 with
  | none =>
      dsimp only
      split <;> rfl
  | some wsEp =>
      dsimp only
      split
      · rfl
      · split <;> rfl

theorem startListeningFail_ok (w : World) (env : StartEnv) :
    (startListeningFail w env).ok = false := by
  unfold startListeningFail
  dsimp only
  split
  · rfl
  · rfl

theorem startListeningFail_tabs (w : World) (env : StartEnv) :
    (startListeningFail w env).w.l.tabs = w.l.tabs := by
  unfold startListeningFail
  dsimp only
  split
  · rw [destroyProvider_l]
  · rw [scheduleReconnect_l, destroyProvider_l]

theorem startListeningFail_isListening (w : World) (env : StartEnv) :
    (startListeningFail w env).w.l.isListening = false := by
  unfold startListeningFail
  dsimp only
  split
  · rw [destroyProvider_l]
  · rw [scheduleReconnect_l, destroyProvider_l]

theorem startListeningFail_provider (w : World) (env : StartEnv) :
    (startListeningFail w env).w.l.provider = none := by
  unfold startListeningFail
  dsimp only
  split
  · rw [destroyProvider_l]
  · rw [scheduleReconnect_l, destroyProvider_l]

theorem startListeningConnected_ok (w : World) (eff : List Effect)
    (env : StartEnv) :
    (startListeningConnected w eff env).ok = env.headBlock.isSome := by
  unfold startListeningConnected
  cases env.headBlock with
  | none => rfl
  | some h => rfl

theorem startListeningConnected_isListening (w : World) (eff : List Effect)
    (env : StartEnv) :
    (startListeningConnected w eff env).w.l.isListening = env.headBlock.isSome := by
  unfold startListeningConnected
  cases env.headBlock with
  | none =>
      dsimp only
      rw [startListeningFail_isListening]
      rfl
  | some hd => rfl

theorem startListeningConnected_tabs (w : World) (eff : List Effect)
    (env : StartEnv) :
    (startListeningConnected w eff env).w.l.tabs = w.l.tabs := by
  unfold startListeningConnected
  cases env.headBlock with
  | none =>
      dsimp only
      rw [startListeningFail_tabs]
  | some hd => rfl

theorem startListening_isListening_eq_ok (w : World) (env : StartEnv) :
    (startListening w env).w.l.isListening = (startListening w env).ok := by
  unfold startListening
  split
  · rename_i h
    exact h
  · split
    · rw [startListeningConnected_isListening, startListeningConnected_ok]
    · dsimp only
      split
      · rw [startListeningConnected_isListening, startListeningConnected_ok]
      · dsimp only
        rw [startListeningFail_isListening]

theorem startListening_tabs (w : World) (env : StartEnv) :
    (startListening w env).w.l.tabs = w.l.tabs := by
  unfold startListening
  split
  · rfl
  · split
    · rw [startListeningConnected_tabs]
    · dsimp only
      split
      · rw [startListeningConnected_tabs, initializeProvider_tabs,
            destroyProvider_l]
      · dsimp only
        rw [startListeningFail_tabs, initializeProvider_tabs,
            destroyProvider_l]

theorem registerTab_isListening (w : World) (tabId : Nat) :
    (registerTab w tabId).l.isListening = w.l.isListening := by
  unfold registerTab
  split <;> rfl

theorem registerTab_tabs_ne_nil (w : World) (tabId : Nat) :
    (registerTab w tabId).l.tabs ≠ [] := by
  unfold registerTab
  split
  · rename_i h
    intro hnil
    have hm : tabId ∈ w.l.tabs := List.elem_iff.mp h
    rw [hnil] at hm
    simp at hm
  · dsimp only
    intro hnil
    exact List.append_ne_nil_of_right_ne_nil _ (by simp) hnil

theorem stopListening_isListening (w : World) (rs : Nat) (cc : Bool) :
    (stopListening w rs cc).1.l.isListening = false := by
  unfold stopListening
  dsimp only
  rw [destroyProvider_l]

theorem stopListening_tabs (w : World) (rs : Nat) (cc : Bool) :
    (stopListening w rs cc).1.l.tabs = w.l.tabs := by
  unfold stopListening
  dsimp only
  rw [destroyProvider_l]

theorem swStepG_inv (g : World × Bool) (op : SWOp)
    (h : g.1.l.isListening = (!g.1.l.tabs.isEmpty && g.2)) :
    (swStepG g op).1.l.isListening =
      (!(swStepG g op).1.l.tabs.isEmpty && (swStepG g op).2) := by
  cases op with
  | register tabId env =>
      dsimp only [swStepG]
      have hne := registerTab_tabs_ne_nil g.1 tabId
      have hE : (registerTab g.1 tabId).l.tabs.isEmpty = false := by
        rcases he : (registerTab g.1 tabId).l.tabs.isEmpty with _ | _
        · rfl
        · exact absurd (List.isEmpty_iff.mp he) hne
      by_cases hl : (registerTab g.1 tabId).l.isListening = true
      · rw [if_pos hl]
        have hgl : g.1.l.isListening = true := by
          rw [← registerTab_isListening g.1 tabId]
          exact hl
        rw [hgl] at h
        have hg2 : g.2 = true := by
          have h2 := h.symm
          simp only [Bool.and_eq_true] at h2
          exact h2.2
        rw [hl, hE, hg2]
        rfl
      · rw [if_neg hl]
        dsimp only
        rw [startListening_isListening_eq_ok, startListening_tabs, hE]
        simp
  | unregister tabId rs cc =>
      dsimp only [swStepG]
      unfold swUnregister
      dsimp only
      split
      · rename_i hA
        unfold hasActiveTabs at hA
        have hEe : (unregisterTab g.1 tabId).l.tabs.isEmpty = false := by
          rcases he : (unregisterTab g.1 tabId).l.tabs.isEmpty with _ | _
          · rfl
          · rw [he] at hA
            exact absurd hA (by simp)
        have hE1 : g.1.l.tabs.isEmpty = false := by
          rcases he : g.1.l.tabs with _ | ⟨a, t⟩
          · exfalso
            have : (unregisterTab g.1 tabId).l.tabs = [] := by
              show (g.1.l.tabs.erase tabId) = []
              rw [he]
              rfl
            rw [List.isEmpty_iff.mpr this] at hEe
            exact absurd hEe (by simp)
          · rfl
        show g.1.l.isListening = (!(unregisterTab g.1 tabId).l.tabs.isEmpty && g.2)
        rw [h, hE1, hEe]
      · rename_i hA
        unfold hasActiveTabs at hA
        have hEe : (unregisterTab g.1 tabId).l.tabs.isEmpty = true := by
          rcases he : (unregisterTab g.1 tabId).l.tabs.isEmpty with _ | _
          · rw [he] at hA
            exact absurd rfl hA
          · rfl
        rw [stopListening_isListening, stopListening_tabs, hEe]
        rfl

/-! ### C2 -/

/-- C2: after any sequence of registerSubscriber/unregisterSubscriber
requests handled by the service worker, `isListening` is true iff the
subscriber (tab) set is non-empty and the most recent connection/start
attempt succeeded (the ghost boolean tracks the result of the most recent
`startListening` run, `false` before any attempt). -/
theorem register_unregister_isListening_invariant (ops : List SWOp) :
    (ops.foldl swStepG (initWorld, false)).1.l.isListening =
      (!(ops.foldl swStepG (initWorld, false)).1.l.tabs.isEmpty &&
        (ops.foldl swStepG (initWorld, false)).2) := by
  have hgen : ∀ (l : List SWOp) (g : World × Bool),
      g.1.l.isListening = (!g.1.l.tabs.isEmpty && g.2) →
      (l.foldl swStepG g).1.l.isListening =
        (!(l.foldl swStepG g).1.l.tabs.isEmpty && (l.foldl swStepG g).2) := by
    intro l
    induction l with
    | nil => intro g h; exact h
    | cons op rest ih =>
        intro g h
        exact ih _ (swStepG_inv g op h)
  exact hgen ops (initWorld, false) rfl

theorem onTransferDetected_shape (w : World) (f t : Nat) (tok : Option Nat)
    (now : Nat) (deliver : Nat → Bool) :
    ∃ tabs2 lte2, (onTransferDetected w f t tok now deliver).1 =
      ⟨w.pool, { w.l with lastTransferEvent := lte2, tabs := tabs2 }⟩ := by
  cases tok with
  | none => exact ⟨w.l.tabs, w.l.lastTransferEvent, rfl⟩
  | some v =>
      unfold onTransferDetected
      dsimp only
      split
      · exact ⟨_, _, rfl⟩
      · exact ⟨w.l.tabs, _, rfl⟩

theorem dedupStep_shape (deliver : TransferEvent → Nat → Bool) (now : Nat)
    (w : World) (ev : TransferEvent) :
    ∃ tabs2 lte2 d2, (dedupStep deliver now w ev).1 =
      ⟨w.pool, { w.l with lastTransferEvent := lte2, tabs := tabs2,
                          processedTxHashesForDeduplication := d2 }⟩ := by
  unfold dedupStep
  split
  · exact ⟨w.l.tabs, w.l.lastTransferEvent,
      w.l.processedTxHashesForDeduplication, rfl⟩
  · dsimp only
    obtain ⟨t2, l2, hshape⟩ := onTransferDetected_shape
      ⟨w.pool, { w.l with processedTxHashesForDeduplication := trimDedup (w.l.processedTxHashesForDeduplication ++ [eventKey ev]) }⟩
      ev.argFrom ev.argTo ev.argTokenId now (deliver ev)
    exact ⟨t2, l2, _, hshape⟩

theorem processEvents_shape (deliver : TransferEvent → Nat → Bool) (now : Nat) :
    ∀ (evs : List TransferEvent) (w : World),
    ∃ tabs2 lte2 d2, (processEvents deliver now w evs).1 =
      ⟨w.pool, { w.l with lastTransferEvent := lte2, tabs := tabs2,
                          processedTxHashesForDeduplication := d2 }⟩ := by
  intro evs
  induction evs with
  | nil =>
      intro w
      exact ⟨w.l.tabs, w.l.lastTransferEvent,
        w.l.processedTxHashesForDeduplication, rfl⟩
  | cons ev rest ih =>
      intro w
      obtain ⟨t1, l1, d1, h1⟩ := dedupStep_shape deliver now w ev
      obtain ⟨t2, l2, d2, h2⟩ := ih (dedupStep deliver now w ev).1
      refine ⟨t2, l2, d2, ?_⟩
      show (processEvents deliver now (dedupStep deliver now w ev).1 rest).1 = _
      rw [h2, h1]

theorem sendLoopGo_countP (p : Effect → Bool)
    (hp : ∀ t k, p (Effect.sendAttempt t k) = false)
    (deliver : Nat → Bool) (tok : Nat) :
    ∀ (ts cur : List Nat), ((sendLoopGo deliver tok ts cur).2.countP p) = 0 := by
  intro ts
  induction ts with
  | nil => intro cur; rfl
  | cons t rest ih =>
      intro cur
      unfold sendLoopGo
      dsimp only
      rw [List.countP_cons, ih, hp]
      simp

theorem onTransferDetected_countP (p : Effect → Bool)
    (hps : ∀ t k, p (Effect.sendAttempt t k) = false)
    (hpp : ∀ s, p (Effect.publishStatus s) = false)
    (w : World) (f t : Nat) (tok : Option Nat) (now : Nat)
    (deliver : Nat → Bool) :
    (onTransferDetected w f t tok now deliver).2.countP p = 0 := by
  cases tok with
  | none => rfl
  | some v =>
      unfold onTransferDetected
      dsimp only
      split
      · rw [List.countP_append, sendLoopGo_countP p hps]
        simp [updateStorageStatus, hpp]
      · simp [updateStorageStatus, hpp]

/-! ### C10 -/

/-- C10: `onTransferDetected` invoked with a null/undefined tokenId returns
without notifying any subscriber, without modifying `lastTransferEvent`, and
without writing a status snapshot: the whole listener state is unchanged and
no external action is performed. -/
theorem null_tokenId_noop (w : World) (f t now : Nat) (deliver : Nat → Bool) :
    onTransferDetected w f t none now deliver = (w, []) := rfl

/-! ### C4 -/

/-- C4: for every reconnect attempt number k (1 ≤ k ≤ 20), the delay
scheduled before attempt k equals min(2000 * 2^(k-1), 60000) milliseconds
(and scheduling it is the only external action), and the attempt counter is
reset to 0 immediately after a reconnect attempt succeeds (the timer callback
resets it when `startListening` returns true). -/
theorem reconnect_backoff_formula (w w2 : World) (env : StartEnv) (k : Nat)
    (hk1 : 1 ≤ k) (hk2 : k ≤ 20) (ha : w.l.reconnectAttempts = k - 1)
    (ht : w.l.tabs ≠ [])
    (hp : w2.l.reconnectTimeout.isSome)
    (hs : (startListening ⟨w2.pool, { w2.l with reconnectTimeout := none }⟩ env).ok
            = true) :
    (scheduleReconnect w).2 =
      [Effect.scheduleTimer (min (2000 * 2 ^ (k - 1)) 60000)] ∧
    (scheduleReconnect w).1.l.reconnectAttempts = k ∧
    (fireReconnect w2 env).1.l.reconnectAttempts = 0 := by
  have hE : ¬w.l.tabs.isEmpty = true := by
    simpa [List.isEmpty_iff] using ht
  have hA : ¬maxReconnectAttempts ≤ w.l.reconnectAttempts := by
    rw [ha]
    unfold maxReconnectAttempts
    omega
  refine ⟨?_, ?_, ?_⟩
  · unfold scheduleReconnect
    rw [if_neg hE, if_neg hA]
    dsimp only
    rw [ha]
    have hkk : k - 1 + 1 - 1 = k - 1 := by omega
    rw [hkk]
    rfl
  · unfold scheduleReconnect
    rw [if_neg hE, if_neg hA]
    dsimp only
    rw [ha]
    omega
  · unfold fireReconnect
    obtain ⟨d, hd⟩ := Option.isSome_iff_exists.mp hp
    rw [hd]
    dsimp only
    rw [hs]
    rfl

theorem reconnect_backoff_formula_witness :
    (1 : Nat) ≤ 5 ∧
    (⟨initialPool, { tabs := [1], reconnectAttempts := 4 }⟩ : World).l.tabs ≠ [] ∧
    (scheduleReconnect ⟨initialPool, { tabs := [1], reconnectAttempts := 4 }⟩).2 =
      [Effect.scheduleTimer (min (2000 * 2 ^ (5 - 1)) 60000)] ∧
    (scheduleReconnect ⟨initialPool, { tabs := [1], reconnectAttempts := 4 }⟩).1.l.reconnectAttempts = 5 ∧
    (fireReconnect ⟨initialPool, { isListening := true, reconnectTimeout := some 2000 }⟩ ⟨1, true, 1, true, true, true, 0, some 0⟩).1.l.reconnectAttempts = 0 := by
  have h := reconnect_backoff_formula
    ⟨initialPool, { tabs := [1], reconnectAttempts := 4 }⟩
    ⟨initialPool, { isListening := true, reconnectTimeout := some 2000 }⟩
    ⟨1, true, 1, true, true, true, 0, some 0⟩ 5
    (by decide) (by decide) (by decide) (by decide) (by decide) (by decide)
  exact ⟨by decide, by decide, h.1, h.2.1, h.2.2⟩

/-! ### C7 -/

/-- C7: the poll cursor never decreases: a poll that observes a chain head ≤
cursor changes nothing (state and trace), every poll leaves the cursor ≥ its
previous value, and on every (re)start `startListening` sets the cursor to
the chain's current head rather than resuming from its previous value. -/
theorem cursor_monotonicity (w w2 w3 : World) (pe : PollEnv)
    (head now h2 : Nat) (evs : List TransferEvent)
    (deliver : TransferEvent → Nat → Bool) (env : StartEnv)
    (hle : head ≤ w.l.lastProcessedBlock.getD 0)
    (hnl : w3.l.isListening = false) (hhd : env.headBlock = some h2)
    (hok : (startListening w3 env).ok = true) :
    pollForTransfers w (PollEnv.ok head now evs deliver) = (w, []) ∧
    w2.l.lastProcessedBlock.getD 0 ≤
      (pollForTransfers w2 pe).1.l.lastProcessedBlock.getD 0 ∧
    (startListening w3 env).w.l.lastProcessedBlock = some h2 := by
  refine ⟨?_, ?_, ?_⟩
  · unfold pollForTransfers
    split
    · rfl
    · dsimp only
      rw [if_pos hle]
  · unfold pollForTransfers
    split
    · exact Nat.le_refl _
    · cases pe with
      | fail networkClass =>
          dsimp only
          cases networkClass with
          | false =>
              rw [if_neg Bool.false_ne_true]
          | true =>
              rw [if_pos rfl]
              split
              · exact Nat.le_refl _
              · rw [scheduleReconnect_l]
      | ok hd nw es dl =>
          dsimp only
          by_cases hcur : hd ≤ w2.l.lastProcessedBlock.getD 0
          · rw [if_pos hcur]
          · rw [if_neg hcur]
            dsimp only
            exact Nat.le_of_lt (Nat.lt_of_not_le hcur)
  · unfold startListening at hok ⊢
    rw [if_neg (by rw [hnl]; exact Bool.false_ne_true)] at hok ⊢
    by_cases hh : isProviderHealthy w3.l env.healthWsReadyState env.healthNetworkOk
    · rw [if_pos hh]
      unfold startListeningConnected
      rw [hhd]
    · rw [if_neg hh] at hok ⊢
      dsimp only at hok ⊢
      by_cases hio : (initializeProvider (destroyProvider w3 env.destroyWsReadyState env.closeConfirmed).1 ⟨env.wsNetworkOk, env.httpNetworkOk, env.now⟩).ok
      · rw [if_pos hio]
        unfold startListeningConnected
        rw [hhd]
      · rw [if_neg hio] at hok
        dsimp only at hok
        exact absurd hok Bool.false_ne_true

theorem cursor_monotonicity_witness :
    ((3 : Nat) ≤ (⟨initialPool, { provider := some (ProviderHandle.http "e"), contract := true, lastProcessedBlock := some 5 }⟩ : World).l.lastProcessedBlock.getD 0) ∧
    pollForTransfers ⟨initialPool, { provider := some (ProviderHandle.http "e"), contract := true, lastProcessedBlock := some 5 }⟩ (PollEnv.ok 3 0 [] (fun _ _ => true)) = (⟨initialPool, { provider := some (ProviderHandle.http "e"), contract := true, lastProcessedBlock := some 5 }⟩, []) ∧
    (⟨initialPool, { provider := some (ProviderHandle.http "e"), contract := true, lastProcessedBlock := some 5 }⟩ : World).l.lastProcessedBlock.getD 0 ≤
      (pollForTransfers ⟨initialPool, { provider := some (ProviderHandle.http "e"), contract := true, lastProcessedBlock := some 5 }⟩ (PollEnv.fail true)).1.l.lastProcessedBlock.getD 0 ∧
    (startListening ⟨initialPool, { provider := some (ProviderHandle.http "e") }⟩ ⟨1, true, 1, true, true, true, 0, some 9⟩).w.l.lastProcessedBlock = some 9 := by
  have h := cursor_monotonicity
    ⟨initialPool, { provider := some (ProviderHandle.http "e"), contract := true, lastProcessedBlock := some 5 }⟩
    ⟨initialPool, { provider := some (ProviderHandle.http "e"), contract := true, lastProcessedBlock := some 5 }⟩
    ⟨initialPool, { provider := some (ProviderHandle.http "e") }⟩
    (PollEnv.fail true) 3 0 9 [] (fun _ _ => true)
    ⟨1, true, 1, true, true, true, 0, some 9⟩
    (by decide) (by decide) (by decide) (by decide)
  exact ⟨by decide, h.1, h.2.1, h.2.2⟩

/-! ### C6 -/

/-- C6 counterexample: with pools = [streamingX], fallback = [httpY], a
failed WebSocket liveness check followed by a successful HTTP fallback leaves
`connectionStatus = connected` but `activeEndpoint` is NOT the fallback
endpoint "httpY": the code stores "httpY (HTTP Fallback)". -/
theorem fallback_activeEndpoint_counterexample :
    (initializeProvider ⟨⟨["streamingX"], 0, ["httpY"], 0⟩, {}⟩ ⟨false, true, 0⟩).w.l.connectionStatus = ConnStatus.connected ∧
    ¬(initializeProvider ⟨⟨["streamingX"], 0, ["httpY"], 0⟩, {}⟩ ⟨false, true, 0⟩).w.l.activeEndpoint = some "httpY" := by
  constructor
  · decide
  · decide

/-- C6 (amended): if the streaming endpoint's liveness check fails, the same
`initializeProvider` call falls back to the HTTP endpoint handed out by the
pool; on the fallback's success the call returns true, `connectionStatus`
becomes connected, and `activeEndpoint` identifies the fallback endpoint as
its URL with " (HTTP Fallback)" appended (for Scenario A:
"httpY (HTTP Fallback)"). -/
theorem fallback_activeEndpoint_amended (w : World) (env : InitEnv)
    (hpool : w.pool.pools ≠ []) (hws : env.wsNetworkOk = false)
    (hhttp : env.httpNetworkOk = true) :
    (initializeProvider w env).ok = true ∧
    (initializeProvider w env).w.l.connectionStatus = ConnStatus.connected ∧
    (initializeProvider w env).w.l.activeEndpoint =
      some ((getFallbackRpcEndpoint (getNextWsEndpoint w.pool).2).1 ++ " (HTTP Fallback)") ∧
    Effect.createHTTP (getFallbackRpcEndpoint (getNextWsEndpoint w.pool).2).1 ∈
      (initializeProvider w env).eff := by
  have hw : (getNextWsEndpoint w.pool).1 =
      some (w.pool.pools.getD w.pool.poolsIdx "") := by
    unfold getNextWsEndpoint
    rw [if_neg (by rw [List.length_eq_zero]; exact hpool)]
  unfold initializeProvider
  rw [hw]
  dsimp only
  rw [if_neg (by rw [hws]; exact Bool.false_ne_true)]
  unfold initializeProviderFallback
  dsimp only
  rw [if_pos hhttp]
  refine ⟨rfl, rfl, rfl, ?_⟩
  simp [updateStorageStatus]

theorem fallback_activeEndpoint_amended_witness :
    ((⟨⟨["streamingX"], 0, ["httpY"], 0⟩, {}⟩ : World).pool.pools ≠ []) ∧
    (initializeProvider ⟨⟨["streamingX"], 0, ["httpY"], 0⟩, {}⟩ ⟨false, true, 0⟩).ok = true ∧
    (initializeProvider ⟨⟨["streamingX"], 0, ["httpY"], 0⟩, {}⟩ ⟨false, true, 0⟩).w.l.connectionStatus = ConnStatus.connected ∧
    (initializeProvider ⟨⟨["streamingX"], 0, ["httpY"], 0⟩, {}⟩ ⟨false, true, 0⟩).w.l.activeEndpoint =
      some ((getFallbackRpcEndpoint (getNextWsEndpoint (⟨["streamingX"], 0, ["httpY"], 0⟩ : PoolState)).2).1 ++ " (HTTP Fallback)") ∧
    Effect.createHTTP (getFallbackRpcEndpoint (getNextWsEndpoint (⟨["streamingX"], 0, ["httpY"], 0⟩ : PoolState)).2).1 ∈
      (initializeProvider ⟨⟨["streamingX"], 0, ["httpY"], 0⟩, {}⟩ ⟨false, true, 0⟩).eff := by
  have h := fallback_activeEndpoint_amended ⟨⟨["streamingX"], 0, ["httpY"], 0⟩, {}⟩
    ⟨false, true, 0⟩ (by decide) (by decide) (by decide)
  exact ⟨by decide, h.1, h.2.1, h.2.2.1, h.2.2.2⟩

/-! ### C8 -/

/-- C8 counterexample: from a listening state, registering a new tab changes
observable state (the tab set, whose size is part of the snapshot) yet the
handler performs no external action at all — no fresh StatusSnapshot is
written; likewise a poll failure that demotes `isListening` from true to
false writes no snapshot (it only schedules the reconnect timer). -/
theorem status_publish_counterexample :
    (swRegister ⟨initialPool, { provider := some (ProviderHandle.http "e"), contract := true, isListening := true, tabs := [1], connectionStatus := ConnStatus.connected }⟩ 2 ⟨1, true, 1, true, true, true, 0, some 0⟩).1.l.tabs ≠
      (⟨initialPool, { provider := some (ProviderHandle.http "e"), contract := true, isListening := true, tabs := [1], connectionStatus := ConnStatus.connected }⟩ : World).l.tabs ∧
    (swRegister ⟨initialPool, { provider := some (ProviderHandle.http "e"), contract := true, isListening := true, tabs := [1], connectionStatus := ConnStatus.connected }⟩ 2 ⟨1, true, 1, true, true, true, 0, some 0⟩).2 = [] ∧
    (pollForTransfers ⟨initialPool, { provider := some (ProviderHandle.http "e"), contract := true, isListening := true, tabs := [1], connectionStatus := ConnStatus.connected }⟩ (PollEnv.fail true)).1.l.isListening = false ∧
    (pollForTransfers ⟨initialPool, { provider := some (ProviderHandle.http "e"), contract := true, isListening := true, tabs := [1], connectionStatus := ConnStatus.connected }⟩ (PollEnv.fail true)).2.countP isPublishEffect = 0 := by
  refine ⟨by decide, by decide, by decide, by decide⟩

/-- C8 (amended): the connection transitions (`initializeProvider`,
`stopListening`) and every admitted transfer event write a fresh
StatusSnapshot reflecting the new state (for an admitted event the snapshot
is written after `lastTransferEvent` is updated and before the broadcast
loop prunes failed tabs); but `registerTab`/`unregisterTab` (when the
listening state does not change as a result) and the poll-failure demotion
of `isListening` do not themselves write a snapshot — the changed subscriber
count or listening flag only becomes externally visible at the next
snapshot-writing transition. -/
theorem status_publish_amended (w1 w2 w3 w4 w5 w6 : World) (env : InitEnv)
    (rs cc : Bool → Bool) (rsn rsn2 : Nat) (cc1 cc2 : Bool)
    (f t tok now : Nat) (deliver : Nat → Bool) (tabId tabId2 : Nat)
    (senv : StartEnv)
    (h1 : w4.l.isListening = true)
    (h2 : (unregisterTab w5 tabId2).l.tabs ≠ [])
    (h3 : ¬w6.l.tabs.isEmpty) (h4 : w6.l.reconnectAttempts < maxReconnectAttempts)
    (h5 : w6.l.provider.isNone = false) (h6 : w6.l.contract = true) :
    (initializeProvider w1 env).eff.getLast? =
      some (Effect.publishStatus (snapshotOf (initializeProvider w1 env).w.l)) ∧
    Effect.publishStatus (snapshotOf (stopListening w2 rsn cc1).1.l) ∈
      (stopListening w2 rsn cc1).2 ∧
    (onTransferDetected w3 f t (some tok) now deliver).2.head? =
      some (Effect.publishStatus (snapshotOf { w3.l with lastTransferEvent := some (TransferRecord.mk tok f t now (transferUrl tok)) })) ∧
    (swRegister w4 tabId senv).2 = [] ∧
    (swUnregister w5 tabId2 rsn2 cc2).2 = [] ∧
    (pollForTransfers w6 (PollEnv.fail true)).2.countP isPublishEffect = 0 := by
  refine ⟨?_, ?_, ?_, ?_, ?_, ?_⟩
  · unfold initializeProvider initializeProviderFallback
    cases hw : (getNextWsEndpoint w1.pool).1 with
    | none =>
        dsimp only
        split
        · simp [updateStorageStatus]
        · simp [updateStorageStatus]
    | some wsEp =>
        dsimp only
        split
        · simp [updateStorageStatus]
        · split
          · simp [updateStorageStatus]
          · simp [updateStorageStatus]
  · unfold stopListening
    dsimp only
    rw [destroyProvider_l]
    simp [updateStorageStatus, snapshotOf]
  · unfold onTransferDetected
    dsimp only
    split
    · rfl
    · rfl
  · unfold swRegister
    rw [if_pos (by rw [registerTab_isListening]; exact h1)]
  · unfold swUnregister
    rw [if_pos ?hpos]
    case hpos =>
      unfold hasActiveTabs
      rcases he : (unregisterTab w5 tabId2).l.tabs with _ | ⟨a, t2⟩
      · exact absurd he h2
      · rfl
  · have hguard : (w6.l.provider.isNone || !w6.l.contract) = false := by
      rw [h5, h6]
      rfl
    have hE : w6.l.tabs.isEmpty = false := by
      rcases he : w6.l.tabs.isEmpty with _ | _
      · rfl
      · exact absurd he h3
    unfold pollForTransfers
    rw [hguard]
    simp only [Bool.false_eq_true, if_false]
    rw [if_pos trivial]
    rw [hE]
    simp only [Bool.false_eq_true, if_false]
    unfold scheduleReconnect
    rw [hE]
    simp only [Bool.false_eq_true, if_false]
    rw [if_neg (Nat.not_le.mpr h4)]
    rfl

theorem status_publish_amended_witness :
    ((⟨initialPool, { isListening := true, tabs := [1] }⟩ : World).l.isListening = true) ∧
    ((unregisterTab ⟨initialPool, { tabs := [1, 2] }⟩ 1).l.tabs ≠ []) ∧
    (initializeProvider initWorld ⟨true, true, 0⟩).eff.getLast? =
      some (Effect.publishStatus (snapshotOf (initializeProvider initWorld ⟨true, true, 0⟩).w.l)) ∧
    Effect.publishStatus (snapshotOf (stopListening initWorld 1 true).1.l) ∈
      (stopListening initWorld 1 true).2 ∧
    (onTransferDetected initWorld 7 8 (some 9) 3 (fun _ => true)).2.head? =
      some (Effect.publishStatus (snapshotOf { initWorld.l with lastTransferEvent := some (TransferRecord.mk 9 7 8 3 (transferUrl 9)) })) ∧
    (swRegister ⟨initialPool, { isListening := true, tabs := [1] }⟩ 5 ⟨1, true, 1, true, true, true, 0, some 0⟩).2 = [] ∧
    (swUnregister ⟨initialPool, { tabs := [1, 2] }⟩ 1 1 true).2 = [] ∧
    (pollForTransfers ⟨initialPool, { provider := some (ProviderHandle.http "e"), contract := true, tabs := [1] }⟩ (PollEnv.fail true)).2.countP isPublishEffect = 0 := by
  have h := status_publish_amended initWorld initWorld initWorld
    ⟨initialPool, { isListening := true, tabs := [1] }⟩
    ⟨initialPool, { tabs := [1, 2] }⟩
    ⟨initialPool, { provider := some (ProviderHandle.http "e"), contract := true, tabs := [1] }⟩
    ⟨true, true, 0⟩ id id 1 1 true true 7 8 9 3 (fun _ => true) 5 1
    ⟨1, true, 1, true, true, true, 0, some 0⟩
    (by decide) (by decide) (by decide) (by decide) (by decide) (by decide)
  exact ⟨by decide, by decide, h.1, h.2.1, h.2.2.1, h.2.2.2.1, h.2.2.2.2.1, h.2.2.2.2.2⟩

/-! ### C9 -/

theorem sendLoopGo_subset (deliver : Nat → Bool) (tok : Nat) :
    ∀ (ts cur : List Nat) (x : Nat),
      x ∈ (sendLoopGo deliver tok ts cur).1 → x ∈ cur := by
  intro ts
  induction ts with
  | nil => intro cur x hx; exact hx
  | cons u rest ih =>
      intro cur x hx
      unfold sendLoopGo at hx
      dsimp only at hx
      by_cases hd : deliver u
      · rw [if_pos hd] at hx
        exact ih cur x hx
      · rw [if_neg hd] at hx
        exact List.erase_subset u cur (ih (cur.erase u) x hx)

theorem sendLoopGo_notMem (deliver : Nat → Bool) (tok tb : Nat)
    (hfail : deliver tb = false) :
    ∀ (ts cur : List Nat), tb ∈ ts → cur.Nodup →
      tb ∉ (sendLoopGo deliver tok ts cur).1 := by
  intro ts
  induction ts with
  | nil => intro cur hmem; exact absurd hmem (by simp)
  | cons u rest ih =>
      intro cur hmem hnd hcontra
      unfold sendLoopGo at hcontra
      dsimp only at hcontra
      by_cases hu : u = tb
      · rw [hu, hfail] at hcontra
        rw [if_neg (by simp)] at hcontra
        exact (List.Nodup.not_mem_erase hnd)
          (sendLoopGo_subset deliver tok rest (cur.erase tb) tb hcontra)
      · have hmem' : tb ∈ rest := by
          rcases List.mem_cons.mp hmem with h | h
          · exact absurd h.symm hu
          · exact h
        by_cases hd : deliver u
        · rw [if_pos hd] at hcontra
          exact ih cur hmem' hnd hcontra
        · rw [if_neg hd] at hcontra
          exact ih (cur.erase u) hmem' (List.Nodup.erase u hnd) hcontra

theorem sendLoopGo_countSend (deliver : Nat → Bool) (tok tb : Nat) :
    ∀ (ts cur : List Nat),
      countSendTo tb (sendLoopGo deliver tok ts cur).2 = ts.count tb := by
  intro ts
  induction ts with
  | nil => intro cur; rfl
  | cons u rest ih =>
      intro cur
      unfold sendLoopGo
      dsimp only
      unfold countSendTo at ih ⊢
      rw [List.countP_cons, ih]
      simp [List.count_cons]

theorem countSendTo_append (tb : Nat) (l1 l2 : List Effect) :
    countSendTo tb (l1 ++ l2) = countSendTo tb l1 + countSendTo tb l2 :=
  List.countP_append _ _ _

theorem onTransferDetected_countSend_zero (w : World) (f t tok now : Nat)
    (deliver : Nat → Bool) (tb : Nat) (hnot : tb ∉ w.l.tabs) :
    countSendTo tb (onTransferDetected w f t (some tok) now deliver).2 = 0 := by
  unfold onTransferDetected
  dsimp only
  split
  · rw [countSendTo_append, sendLoopGo_countSend]
    rw [List.count_eq_zero.mpr hnot]
    rfl
  · rfl

/-- C9: a subscriber whose delivery of one event fails is removed from the
registry by that single failure: it is attempted exactly once for that event
(no retry), it is absent from the tab set afterwards, and a subsequent event
dispatched from the resulting state produces no delivery attempt to it. -/
theorem failed_subscriber_pruned (w : World) (f t tok now : Nat)
    (deliver : Nat → Bool) (tb : Nat) (f2 t2 tok2 now2 : Nat)
    (deliver2 : Nat → Bool)
    (hmem : tb ∈ w.l.tabs) (hnd : w.l.tabs.Nodup)
    (hfail : deliver tb = false) :
    tb ∉ (onTransferDetected w f t (some tok) now deliver).1.l.tabs ∧
    countSendTo tb (onTransferDetected w f t (some tok) now deliver).2 = 1 ∧
    countSendTo tb (onTransferDetected
      (onTransferDetected w f t (some tok) now deliver).1
      f2 t2 (some tok2) now2 deliver2).2 = 0 := by
  have hlen : 0 < w.l.tabs.length := List.length_pos.mpr (by
    intro hnil
    rw [hnil] at hmem
    simp at hmem)
  have hnotmem : tb ∉ (onTransferDetected w f t (some tok) now deliver).1.l.tabs := by
    unfold onTransferDetected
    dsimp only
    rw [if_pos (by simpa using hlen)]
    exact sendLoopGo_notMem deliver tok tb hfail w.l.tabs w.l.tabs hmem hnd
  refine ⟨hnotmem, ?_, ?_⟩
  · unfold onTransferDetected
    dsimp only
    rw [if_pos (by simpa using hlen)]
    rw [countSendTo_append, sendLoopGo_countSend]
    rw [List.count_eq_one_of_mem hnd hmem]
    rfl
  · exact onTransferDetected_countSend_zero _ f2 t2 tok2 now2 deliver2 tb hnotmem

theorem failed_subscriber_pruned_witness :
    ((3 : Nat) ∈ ([3, 4] : List Nat)) ∧
    (3 ∉ (onTransferDetected ⟨initialPool, { tabs := [3, 4] }⟩ 7 8 (some 9) 0 (fun n => n ≠ 3)).1.l.tabs) ∧
    countSendTo 3 (onTransferDetected ⟨initialPool, { tabs := [3, 4] }⟩ 7 8 (some 9) 0 (fun n => n ≠ 3)).2 = 1 ∧
    countSendTo 3 (onTransferDetected
      (onTransferDetected ⟨initialPool, { tabs := [3, 4] }⟩ 7 8 (some 9) 0 (fun n => n ≠ 3)).1
      1 2 (some 5) 1 (fun _ => true)).2 = 0 := by
  have h := failed_subscriber_pruned ⟨initialPool, { tabs := [3, 4] }⟩ 7 8 9 0
    (fun n => n ≠ 3) 3 1 2 5 1 (fun _ => true)
    (by decide) (by decide) (by decide)
  exact ⟨by decide, h.1, h.2.1, h.2.2⟩

/-! ### C3 -/

/-- C3 counterexample: one `initializeProvider` call whose WebSocket liveness
check fails creates two providers (the WebSocket one, then the HTTP fallback)
and never destroys or releases the first before creating the second: the
trace contains a provider creation while the previously created provider is
still held. -/
theorem provider_overlap_counterexample :
    (initializeProvider ⟨⟨["wss://a"], 0, ["https://b"], 0⟩, {}⟩ ⟨false, true, 0⟩).eff.countP isCreateEffect = 2 ∧
    createWhileHeld (initializeProvider ⟨⟨["wss://a"], 0, ["https://b"], 0⟩, {}⟩ ⟨false, true, 0⟩).eff false = true := by
  refine ⟨by decide, by decide⟩

theorem createBeforeRelease_destroy (w : World) (rs : Nat) (cc : Bool)
    (rest : List Effect) (h : w.l.provider.isSome = true) :
    createBeforeRelease ((destroyProvider w rs cc).2 ++ rest) = false := by
  rcases hp : w.l.provider with _ | p
  · rw [hp] at h
    exact absurd h (by simp)
  · cases p with
    | ws e =>
        unfold destroyProvider
        rw [hp]
        dsimp only
        split
        · rfl
        · rfl
    | http e =>
        unfold destroyProvider
        rw [hp]
        rfl

theorem createBeforeRelease_destroy_nil (w : World) (rs : Nat) (cc : Bool)
    (h : w.l.provider.isSome = true) :
    createBeforeRelease (destroyProvider w rs cc).2 = false := by
  have he : (destroyProvider w rs cc).2 = (destroyProvider w rs cc).2 ++ [] :=
    (List.append_nil _).symm
  rw [he]
  exact createBeforeRelease_destroy w rs cc [] h

/-- C3 (amended): at most one provider handle is retained by the listener:
`destroyProvider` always frees the slot (provider and contract references
cleared) whether or not the transport's close is confirmed within the
bounded wait, and `startListening` releases the currently held provider
before any new provider is created; however, within `initializeProvider`'s
fallback path the HTTP provider is created while the just-created WebSocket
provider whose liveness check failed has not been destroyed — that provider
is only dropped by overwriting the reference. -/
theorem provider_lifecycle_amended (w wd : World) (rs : Nat) (cc : Bool)
    (env : StartEnv) (h : wd.l.provider.isSome = true) :
    (destroyProvider w rs cc).1.l.provider = none ∧
    (destroyProvider w rs cc).1.l.contract = (!w.l.provider.isSome && w.l.contract) ∧
    createBeforeRelease (startListening wd env).eff = false := by
  refine ⟨?_, ?_, ?_⟩
  · rw [destroyProvider_l]
  · rw [destroyProvider_l]
  · unfold startListening
    split
    · rfl
    · split
      · unfold startListeningConnected
        cases env.headBlock with
        | none =>
            dsimp only
            unfold startListeningFail
            dsimp only
            split
            · exact createBeforeRelease_destroy_nil _ _ _ h
            · exact createBeforeRelease_destroy _ _ _ _ h
        | some hd => rfl
      · dsimp only
        split
        · unfold startListeningConnected
          cases env.headBlock with
          | none =>
              dsimp only
              unfold startListeningFail
              dsimp only
              split
              · rw [List.append_assoc]
                exact createBeforeRelease_destroy _ _ _ _ h
              · rw [List.append_assoc]
                exact createBeforeRelease_destroy _ _ _ _ h
          | some hd =>
              exact createBeforeRelease_destroy _ _ _ _ h
        · dsimp only
          rw [List.append_assoc]
          exact createBeforeRelease_destroy _ _ _ _ h

theorem provider_lifecycle_amended_witness :
    ((⟨initialPool, { provider := some (ProviderHandle.ws "wss://x") }⟩ : World).l.provider.isSome = true) ∧
    (destroyProvider ⟨initialPool, { provider := some (ProviderHandle.ws "wss://x") }⟩ 1 false).1.l.provider = none ∧
    (destroyProvider ⟨initialPool, { provider := some (ProviderHandle.ws "wss://x") }⟩ 1 false).1.l.contract =
      (!(⟨initialPool, { provider := some (ProviderHandle.ws "wss://x") }⟩ : World).l.provider.isSome &&
        (⟨initialPool, { provider := some (ProviderHandle.ws "wss://x") }⟩ : World).l.contract) ∧
    createBeforeRelease (startListening ⟨initialPool, { provider := some (ProviderHandle.ws "wss://x") }⟩ ⟨1, false, 1, true, true, true, 0, some 5⟩).eff = false := by
  have h := provider_lifecycle_amended
    ⟨initialPool, { provider := some (ProviderHandle.ws "wss://x") }⟩
    ⟨initialPool, { provider := some (ProviderHandle.ws "wss://x") }⟩
    1 false ⟨1, false, 1, true, true, true, 0, some 5⟩ (by decide)
  exact ⟨by decide, h.1, h.2.1, h.2.2⟩

/-! ### C5 -/

theorem registerTab_provider (w : World) (tabId : Nat) :
    (registerTab w tabId).l.provider = w.l.provider := by
  unfold registerTab
  split <;> rfl

theorem scheduleReconnect_exhausted_attempts (w : World)
    (h : maxReconnectAttempts ≤ w.l.reconnectAttempts) :
    (scheduleReconnect w).1.l.reconnectAttempts = w.l.reconnectAttempts := by
  rw [scheduleReconnect_l]
  show (if _ ∧ w.l.reconnectAttempts < maxReconnectAttempts then _ else _) = _
  rw [if_neg (fun hc => (Nat.not_lt.mpr h) hc.2)]

theorem scheduleReconnect_exhausted_timeout (w : World)
    (h : maxReconnectAttempts ≤ w.l.reconnectAttempts) :
    (scheduleReconnect w).1.l.reconnectTimeout = w.l.reconnectTimeout := by
  rw [scheduleReconnect_l]
  show (if _ ∧ w.l.reconnectAttempts < maxReconnectAttempts then _ else _) = _
  rw [if_neg (fun hc => (Nat.not_lt.mpr h) hc.2)]

theorem dedupStep_noTimer (deliver : TransferEvent → Nat → Bool) (now : Nat)
    (w : World) (ev : TransferEvent) :
    (dedupStep deliver now w ev).2.countP isTimerEffect = 0 := by
  unfold dedupStep
  split
  · rfl
  · dsimp only
    rw [List.countP_cons]
    rw [onTransferDetected_countP isTimerEffect (fun _ _ => rfl) (fun _ => rfl)]
    rfl

theorem processEvents_noTimer (deliver : TransferEvent → Nat → Bool)
    (now : Nat) :
    ∀ (evs : List TransferEvent) (w : World),
      (processEvents deliver now w evs).2.countP isTimerEffect = 0 := by
  intro evs
  induction evs with
  | nil => intro w; rfl
  | cons ev rest ih =>
      intro w
      unfold processEvents
      dsimp only
      rw [List.countP_append, dedupStep_noTimer, ih]

theorem processEvents_attempts (deliver : TransferEvent → Nat → Bool)
    (now : Nat) (evs : List TransferEvent) (w : World) :
    (processEvents deliver now w evs).1.l.reconnectAttempts =
      w.l.reconnectAttempts := by
  obtain ⟨t2, l2, d2, h⟩ := processEvents_shape deliver now evs w
  rw [h]

theorem processEvents_timeout (deliver : TransferEvent → Nat → Bool)
    (now : Nat) (evs : List TransferEvent) (w : World) :
    (processEvents deliver now w evs).1.l.reconnectTimeout =
      w.l.reconnectTimeout := by
  obtain ⟨t2, l2, d2, h⟩ := processEvents_shape deliver now evs w
  rw [h]

theorem pollForTransfers_exhausted (w : World) (pe : PollEnv)
    (h : maxReconnectAttempts ≤ w.l.reconnectAttempts) :
    (pollForTransfers w pe).2.countP isTimerEffect = 0 ∧
    (pollForTransfers w pe).1.l.reconnectAttempts = w.l.reconnectAttempts ∧
    (pollForTransfers w pe).1.l.reconnectTimeout = w.l.reconnectTimeout := by
  unfold pollForTransfers
  split
  · exact ⟨rfl, rfl, rfl⟩
  · cases pe with
    | fail networkClass =>
        dsimp only
        cases networkClass with
        | false =>
            rw [if_neg Bool.false_ne_true]
            exact ⟨rfl, rfl, rfl⟩
        | true =>
            rw [if_pos rfl]
            split
            · exact ⟨rfl, rfl, rfl⟩
            · exact ⟨scheduleReconnect_noTimer _ h,
                scheduleReconnect_exhausted_attempts _ h,
                scheduleReconnect_exhausted_timeout _ h⟩
    | ok hd nw es dl =>
        dsimp only
        by_cases hcur : hd ≤ w.l.lastProcessedBlock.getD 0
        · rw [if_pos hcur]
          exact ⟨rfl, rfl, rfl⟩
        · rw [if_neg hcur]
          dsimp only
          exact ⟨processEvents_noTimer dl nw es w,
            processEvents_attempts dl nw es w,
            processEvents_timeout dl nw es w⟩

theorem fireReconnect_noPending (w : World) (env : StartEnv)
    (h : w.l.reconnectTimeout = none) :
    fireReconnect w env = (w, []) := by
  unfold fireReconnect
  rw [h]

theorem runAuto_exhausted (steps : List AutoStep) :
    ∀ (w : World), maxReconnectAttempts ≤ w.l.reconnectAttempts →
      w.l.reconnectTimeout = none →
      maxReconnectAttempts ≤ (runAuto w steps).1.l.reconnectAttempts ∧
      (runAuto w steps).1.l.reconnectTimeout = none ∧
      (runAuto w steps).2.countP isTimerEffect = 0 := by
  induction steps with
  | nil => intro w h1 h2; exact ⟨h1, h2, rfl⟩
  | cons st rest ih =>
      intro w h1 h2
      unfold runAuto
      dsimp only
      cases st with
      | tick pe =>
          obtain ⟨e0, a0, t0⟩ := pollForTransfers_exhausted w pe h1
          have hstep : autoStep w (AutoStep.tick pe) = pollForTransfers w pe := rfl
          rw [hstep]
          obtain ⟨ih1, ih2, ih3⟩ := ih (pollForTransfers w pe).1
            (by rw [a0]; exact h1) (by rw [t0]; exact h2)
          exact ⟨ih1, ih2, by rw [List.countP_append, e0, ih3]⟩
      | fire env =>
          have hstep : autoStep w (AutoStep.fire env) = (w, []) :=
            fireReconnect_noPending w env h2
          rw [hstep]
          obtain ⟨ih1, ih2, ih3⟩ := ih w h1 h2
          refine ⟨ih1, ih2, ?_⟩
          rw [List.countP_append, ih3]
          rfl

theorem initializeProvider_hasCreate (w : World) (env : InitEnv) :
    1 ≤ (initializeProvider w env).eff.countP isCreateEffect := by
  unfold initializeProvider initializeProviderFallback
  cases hw : (getNextWsEndpoint w.pool).1 with
  | none =>
      dsimp only
      split
      · simp [updateStorageStatus, List.countP_append, List.countP_cons,
          isCreateEffect]
      · simp [updateStorageStatus, List.countP_append, List.countP_cons,
          isCreateEffect]
  | some wsEp =>
      dsimp only
      split
      · simp [updateStorageStatus, List.countP_append, List.countP_cons,
          isCreateEffect]
      · split
        · simp [updateStorageStatus, List.countP_append, List.countP_cons,
            isCreateEffect]
        · simp [updateStorageStatus, List.countP_append, List.countP_cons,
            isCreateEffect]

theorem swRegister_hasCreate (wr : World) (tb : Nat) (env : StartEnv)
    (hnl : wr.l.isListening = false) (hpn : wr.l.provider = none) :
    1 ≤ (swRegister wr tb env).2.countP isCreateEffect := by
  unfold swRegister
  rw [if_neg (by rw [registerTab_isListening, hnl]; exact Bool.false_ne_true)]
  dsimp only
  unfold startListening
  rw [if_neg (by rw [registerTab_isListening, hnl]; exact Bool.false_ne_true)]
  have hh : isProviderHealthy (registerTab wr tb).l env.healthWsReadyState
      env.healthNetworkOk = false := by
    unfold isProviderHealthy
    rw [registerTab_provider, hpn]
  rw [if_neg (by rw [hh]; exact Bool.false_ne_true)]
  dsimp only
  have hic := initializeProvider_hasCreate
    (destroyProvider (registerTab wr tb) env.destroyWsReadyState env.closeConfirmed).1
    ⟨env.wsNetworkOk, env.httpNetworkOk, env.now⟩
  split
  · unfold startListeningConnected
    cases env.headBlock with
    | none =>
        dsimp only
        rw [List.countP_append, List.countP_append]
        omega
    | some hd =>
        dsimp only
        rw [List.countP_append]
        omega
  · dsimp only
    rw [List.countP_append, List.countP_append]
    omega

/-- C5: once 20 consensus reconnect attempts have been consumed,
`scheduleReconnect` sets `connectionStatus` to failed and publishes exactly
one fresh status snapshot without scheduling any timer; from an exhausted
state with no pending timer, no sequence of automatic steps (poll ticks or
timer firings) ever schedules a reconnect timer; and a new subscriber
registration from such a state restarts the connection cycle (it creates a
fresh provider). -/
theorem reconnect_budget_exhausted (w w2 wr : World) (steps : List AutoStep)
    (tb : Nat) (env : StartEnv)
    (ht : w.l.tabs ≠ []) (h20 : maxReconnectAttempts ≤ w.l.reconnectAttempts)
    (h20b : maxReconnectAttempts ≤ w2.l.reconnectAttempts)
    (hp2 : w2.l.reconnectTimeout = none)
    (hnl : wr.l.isListening = false) (hpn : wr.l.provider = none) :
    (scheduleReconnect w).1.l.connectionStatus = ConnStatus.failed ∧
    (scheduleReconnect w).2 = [Effect.publishStatus (snapshotOf { w.l with connectionStatus := ConnStatus.failed })] ∧
    (runAuto w2 steps).2.countP isTimerEffect = 0 ∧
    1 ≤ (swRegister wr tb env).2.countP isCreateEffect := by
  have hE : ¬w.l.tabs.isEmpty = true := by
    simpa [List.isEmpty_iff] using ht
  refine ⟨?_, ?_, (runAuto_exhausted steps w2 h20b hp2).2.2,
    swRegister_hasCreate wr tb env hnl hpn⟩
  · have hBE : (!w.l.tabs.isEmpty) = true := by
      rcases he : w.l.tabs.isEmpty with _ | _
      · rfl
      · exact absurd he hE
    rw [scheduleReconnect_l]
    show (if _ ∧ _ then _ else _) = _
    rw [if_pos ⟨hBE, h20⟩]
  · unfold scheduleReconnect
    rw [if_neg hE, if_pos h20]
    rfl

theorem reconnect_budget_exhausted_witness :
    ((⟨initialPool, { tabs := [4], reconnectAttempts := 20 }⟩ : World).l.tabs ≠ []) ∧
    maxReconnectAttempts ≤ (⟨initialPool, { tabs := [4], reconnectAttempts := 20 }⟩ : World).l.reconnectAttempts ∧
    (scheduleReconnect ⟨initialPool, { tabs := [4], reconnectAttempts := 20 }⟩).1.l.connectionStatus = ConnStatus.failed ∧
    (scheduleReconnect ⟨initialPool, { tabs := [4], reconnectAttempts := 20 }⟩).2 =
      [Effect.publishStatus (snapshotOf { (⟨initialPool, { tabs := [4], reconnectAttempts := 20 }⟩ : World).l with connectionStatus := ConnStatus.failed })] ∧
    (runAuto ⟨initialPool, { tabs := [4], reconnectAttempts := 20, provider := some (ProviderHandle.http "e"), contract := true }⟩ [AutoStep.tick (PollEnv.fail true), AutoStep.fire ⟨1, true, 1, true, true, true, 0, some 0⟩, AutoStep.tick (PollEnv.ok 3 0 [] (fun _ _ => true))]).2.countP isTimerEffect = 0 ∧
    1 ≤ (swRegister ⟨initialPool, { reconnectAttempts := 20 }⟩ 9 ⟨1, true, 1, true, true, true, 0, some 0⟩).2.countP isCreateEffect := by
  have h := reconnect_budget_exhausted
    ⟨initialPool, { tabs := [4], reconnectAttempts := 20 }⟩
    ⟨initialPool, { tabs := [4], reconnectAttempts := 20, provider := some (ProviderHandle.http "e"), contract := true }⟩
    ⟨initialPool, { reconnectAttempts := 20 }⟩
    [AutoStep.tick (PollEnv.fail true), AutoStep.fire ⟨1, true, 1, true, true, true, 0, some 0⟩, AutoStep.tick (PollEnv.ok 3 0 [] (fun _ _ => true))]
    9 ⟨1, true, 1, true, true, true, 0, some 0⟩
    (by decide) (by decide) (by decide) (by decide) (by decide) (by decide)
  exact ⟨by decide, by decide, h.1, h.2.1, h.2.2.1, h.2.2.2⟩

/-! ### C1 -/

theorem countDetected_append (k : Nat × Nat) (l1 l2 : List Effect) :
    countDetected k (l1 ++ l2) = countDetected k l1 + countDetected k l2 :=
  List.countP_append _ _ _

theorem processEvents_cons (deliver : TransferEvent → Nat → Bool) (now : Nat)
    (w : World) (ev : TransferEvent) (rest : List TransferEvent) :
    processEvents deliver now w (ev :: rest) =
      ((processEvents deliver now (dedupStep deliver now w ev).1 rest).1,
        (dedupStep deliver now w ev).2 ++
          (processEvents deliver now (dedupStep deliver now w ev).1 rest).2) := rfl

theorem dedupStep_skip (deliver : TransferEvent → Nat → Bool) (now : Nat)
    (w : World) (ev : TransferEvent)
    (h : w.l.processedTxHashesForDeduplication.contains (eventKey ev) = true) :
    dedupStep deliver now w ev = (w, []) := by
  unfold dedupStep
  rw [if_pos h]

theorem dedupStep_dedup (deliver : TransferEvent → Nat → Bool) (now : Nat)
    (w : World) (ev : TransferEvent)
    (h : w.l.processedTxHashesForDeduplication.contains (eventKey ev) = false) :
    (dedupStep deliver now w ev).1.l.processedTxHashesForDeduplication =
      trimDedup (w.l.processedTxHashesForDeduplication ++ [eventKey ev]) := by
  unfold dedupStep
  rw [if_neg (by rw [h]; exact Bool.false_ne_true)]
  dsimp only
  obtain ⟨t2, l2, hs⟩ := onTransferDetected_shape
    ⟨w.pool, { w.l with processedTxHashesForDeduplication := trimDedup (w.l.processedTxHashesForDeduplication ++ [eventKey ev]) }⟩
    ev.argFrom ev.argTo ev.argTokenId now (deliver ev)
  rw [hs]

theorem onTransferDetected_tabs_nil (w : World) (f t : Nat) (tok : Option Nat)
    (now : Nat) (deliver : Nat → Bool) (hts : w.l.tabs = []) :
    (onTransferDetected w f t tok now deliver).1.l.tabs = [] := by
  cases tok with
  | none => exact hts
  | some v =>
      unfold onTransferDetected
      dsimp only
      split
      · rename_i hlen
        exfalso
        have hlen' : w.l.tabs.length > 0 := hlen
        rw [hts] at hlen'
        exact absurd hlen' (by simp)
      · exact hts

theorem dedupStep_tabs (deliver : TransferEvent → Nat → Bool) (now : Nat)
    (w : World) (ev : TransferEvent) (hts : w.l.tabs = []) :
    (dedupStep deliver now w ev).1.l.tabs = [] := by
  unfold dedupStep
  split
  · exact hts
  · dsimp only
    exact onTransferDetected_tabs_nil _ _ _ _ _ _ hts

theorem dedupStep_count (deliver : TransferEvent → Nat → Bool) (now : Nat)
    (w : World) (ev : TransferEvent)
    (h : w.l.processedTxHashesForDeduplication.contains (eventKey ev) = false)
    (k : Nat × Nat) :
    countDetected k (dedupStep deliver now w ev).2 =
      if (ev.transactionHash == k.1 && ev.index == k.2) = true then 1 else 0 := by
  unfold dedupStep
  rw [if_neg (by rw [h]; exact Bool.false_ne_true)]
  dsimp only
  unfold countDetected
  rw [List.countP_cons]
  rw [onTransferDetected_countP _ (fun _ _ => rfl) (fun _ => rfl)]
  rw [Nat.zero_add]

theorem mem_trimDedup_last (d : List (Nat × Nat)) (k : Nat × Nat) :
    k ∈ trimDedup (d ++ [k]) := by
  unfold trimDedup
  split
  · rename_i hlen
    have hl : (d ++ [k]).length = d.length + 1 := by simp
    rw [hl] at hlen ⊢
    rw [List.drop_append_of_le_length (by omega)]
    exact List.mem_append_right _ (by simp)
  · exact List.mem_append_right _ (by simp)

theorem dedupStep_contains_after (deliver : TransferEvent → Nat → Bool)
    (now : Nat) (w : World) (ev : TransferEvent)
    (h : w.l.processedTxHashesForDeduplication.contains (eventKey ev) = false) :
    (dedupStep deliver now w ev).1.l.processedTxHashesForDeduplication.contains
      (eventKey ev) = true := by
  rw [dedupStep_dedup deliver now w ev h]
  exact List.elem_iff.mpr (mem_trimDedup_last _ _)

theorem eventKey_pred_iff (ev : TransferEvent) (k : Nat × Nat) :
    ((ev.transactionHash == k.1 && ev.index == k.2) = true) ↔ eventKey ev = k := by
  constructor
  · intro hb
    simp only [Bool.and_eq_true, beq_iff_eq] at hb
    obtain ⟨h1, h2⟩ := hb
    unfold eventKey
    cases k with
    | mk k1 k2 => simp_all
  · intro he
    have h1 : ev.transactionHash = k.1 := by
      rw [← he]
      rfl
    have h2 : ev.index = k.2 := by
      rw [← he]
      rfl
    simp [h1, h2]

theorem processEvents_bounded (deliver : TransferEvent → Nat → Bool)
    (now : Nat) :
    ∀ (evs : List TransferEvent) (w : World) (k : Nat × Nat),
      w.l.processedTxHashesForDeduplication.length + evs.length ≤ 1000 →
      (w.l.processedTxHashesForDeduplication.contains k = true →
        countDetected k (processEvents deliver now w evs).2 = 0) ∧
      countDetected k (processEvents deliver now w evs).2 ≤ 1 := by
  intro evs
  induction evs with
  | nil =>
      intro w k h
      refine ⟨fun _ => rfl, ?_⟩
      have h0 : countDetected k (processEvents deliver now w []).2 = 0 := rfl
      omega
  | cons ev rest ih =>
      intro w k h
      have hrest : w.l.processedTxHashesForDeduplication.length + rest.length + 1 ≤ 1000 := by
        rw [List.length_cons] at h
        omega
      rw [processEvents_cons, countDetected_append]
      by_cases hc : w.l.processedTxHashesForDeduplication.contains (eventKey ev) = true
      · rw [dedupStep_skip deliver now w ev hc]
        dsimp only
        obtain ⟨ihz, ihle⟩ := ih w k (by omega)
        constructor
        · intro hk
          rw [ihz hk]
          rfl
        · have h0 : countDetected k ([] : List Effect) = 0 := rfl
          omega
      · have hcf : w.l.processedTxHashesForDeduplication.contains (eventKey ev) = false := by
          rcases hcc : w.l.processedTxHashesForDeduplication.contains (eventKey ev) with _ | _
          · rfl
          · exact absurd hcc hc
        have htrim : trimDedup (w.l.processedTxHashesForDeduplication ++ [eventKey ev]) =
            w.l.processedTxHashesForDeduplication ++ [eventKey ev] := by
          unfold trimDedup
          rw [if_neg (by rw [List.length_append]; simp; omega)]
        have hded : (dedupStep deliver now w ev).1.l.processedTxHashesForDeduplication =
            w.l.processedTxHashesForDeduplication ++ [eventKey ev] := by
          rw [dedupStep_dedup deliver now w ev hcf, htrim]
        have hcnt := dedupStep_count deliver now w ev hcf k
        have hlen2 : (dedupStep deliver now w ev).1.l.processedTxHashesForDeduplication.length + rest.length ≤ 1000 := by
          rw [hded, List.length_append]
          simp
          omega
        obtain ⟨ihz, ihle⟩ := ih (dedupStep deliver now w ev).1 k hlen2
        constructor
        · intro hk
          have hkey_ne : ¬(eventKey ev = k) := by
            intro he
            rw [he, hk] at hcf
            exact absurd hcf (by simp)
          rw [hcnt, if_neg (fun hb => hkey_ne ((eventKey_pred_iff ev k).mp hb))]
          have hk2 : (dedupStep deliver now w ev).1.l.processedTxHashesForDeduplication.contains k = true := by
            rw [hded]
            exact List.elem_iff.mpr (List.mem_append_left _ (List.elem_iff.mp hk))
          rw [ihz hk2]
        · by_cases hkey : eventKey ev = k
          · rw [hcnt, if_pos ((eventKey_pred_iff ev k).mpr hkey)]
            have hk2 : (dedupStep deliver now w ev).1.l.processedTxHashesForDeduplication.contains k = true := by
              rw [hded, ← hkey]
              exact List.elem_iff.mpr (List.mem_append_right _ (by simp))
            rw [ihz hk2]
          · rw [hcnt, if_neg (fun hb => hkey ((eventKey_pred_iff ev k).mp hb))]
            omega

/-- C1 (amended): an event identity already present in the deduplication set
is skipped, and an identity is added to the set before its event is
dispatched; consequently an event is dispatched at most once while its
identity remains in the bounded window — in particular, whenever at most
1000 identities (the ones held plus the ones observed) are in play, each
identity is dispatched at most once across any overlapping polls, and an
identity already in the window is never re-dispatched.  (After the window
exceeds 1000 entries it is trimmed to the newest 500, and an evicted
identity can be dispatched again by a later overlapping poll.) -/
theorem dedup_window_amended :
    (∀ (deliver : TransferEvent → Nat → Bool) (now : Nat) (w : World)
       (ev : TransferEvent),
      w.l.processedTxHashesForDeduplication.contains (eventKey ev) = true →
      dedupStep deliver now w ev = (w, [])) ∧
    (∀ (deliver : TransferEvent → Nat → Bool) (now : Nat) (w : World)
       (ev : TransferEvent),
      w.l.processedTxHashesForDeduplication.contains (eventKey ev) = false →
      (dedupStep deliver now w ev).1.l.processedTxHashesForDeduplication.contains (eventKey ev) = true) ∧
    (∀ (deliver : TransferEvent → Nat → Bool) (now : Nat)
       (evs : List TransferEvent) (w : World) (k : Nat × Nat),
      w.l.processedTxHashesForDeduplication.length + evs.length ≤ 1000 →
      (w.l.processedTxHashesForDeduplication.contains k = true →
        countDetected k (processEvents deliver now w evs).2 = 0) ∧
      countDetected k (processEvents deliver now w evs).2 ≤ 1) :=
  ⟨dedupStep_skip, dedupStep_contains_after,
    fun deliver now evs w k h => processEvents_bounded deliver now evs w k h⟩

theorem dedup_window_amended_witness :
    ((⟨initialPool, { processedTxHashesForDeduplication := [(0, 0)] }⟩ : World).l.processedTxHashesForDeduplication.contains (eventKey ⟨0, 0, 1, 100, 200, some 7⟩) = true) ∧
    dedupStep (fun _ _ => true) 0 ⟨initialPool, { processedTxHashesForDeduplication := [(0, 0)] }⟩ ⟨0, 0, 1, 100, 200, some 7⟩ =
      (⟨initialPool, { processedTxHashesForDeduplication := [(0, 0)] }⟩, []) ∧
    (dedupStep (fun _ _ => true) 0 ⟨initialPool, {}⟩ ⟨0, 0, 1, 100, 200, some 7⟩).1.l.processedTxHashesForDeduplication.contains (eventKey ⟨0, 0, 1, 100, 200, some 7⟩) = true ∧
    countDetected (0, 0) (processEvents (fun _ _ => true) 0 ⟨initialPool, { processedTxHashesForDeduplication := [(0, 0)] }⟩ [⟨0, 0, 1, 100, 200, some 7⟩, ⟨0, 0, 1, 100, 200, some 7⟩]).2 = 0 ∧
    countDetected (0, 0) (processEvents (fun _ _ => true) 0 ⟨initialPool, {}⟩ [⟨0, 0, 1, 100, 200, some 7⟩, ⟨0, 0, 1, 100, 200, some 7⟩]).2 ≤ 1 := by
  refine ⟨by decide, ?_, ?_, ?_, ?_⟩
  · exact dedup_window_amended.1 (fun _ _ => true) 0
      ⟨initialPool, { processedTxHashesForDeduplication := [(0, 0)] }⟩
      ⟨0, 0, 1, 100, 200, some 7⟩ (by decide)
  · exact dedup_window_amended.2.1 (fun _ _ => true) 0 ⟨initialPool, {}⟩
      ⟨0, 0, 1, 100, 200, some 7⟩ (by decide)
  · exact (dedup_window_amended.2.2 (fun _ _ => true) 0
      [⟨0, 0, 1, 100, 200, some 7⟩, ⟨0, 0, 1, 100, 200, some 7⟩]
      ⟨initialPool, { processedTxHashesForDeduplication := [(0, 0)] }⟩
      (0, 0) (by decide)).1 (by decide)
  · exact (dedup_window_amended.2.2 (fun _ _ => true) 0
      [⟨0, 0, 1, 100, 200, some 7⟩, ⟨0, 0, 1, 100, 200, some 7⟩]
      ⟨initialPool, {}⟩ (0, 0) (by decide)).2

/-! C1 counterexample machinery: one poll admits the identity (0,0) and then
1000 further fresh identities, which pushes the dedup set past 1000 entries
and trims it to the newest 500, evicting (0,0); an overlapping re-poll (after
a reconnect reset the cursor back) observes (0,0) again and dispatches it a
second time. -/

def evA : TransferEvent := ⟨0, 0, 1, 100, 200, some 7⟩

def fillEv (i : Nat) : TransferEvent := ⟨1, i, i + 2, 100, 200, some 5⟩

def fillKey (i : Nat) : Nat × Nat := (1, i)

def fillKeys (n : Nat) : List (Nat × Nat) := (List.range n).map fillKey

def fillEvs (n : Nat) : List TransferEvent := (List.range n).map fillEv

def delAll : TransferEvent → Nat → Bool := fun _ _ => true

def c1Start : World :=
  ⟨initialPool, { provider := some (ProviderHandle.http "e"), contract := true,
                  isListening := true, lastProcessedBlock := some 0 }⟩

theorem fillKeys_length (n : Nat) : (fillKeys n).length = n := by
  simp [fillKeys]

theorem fillKeys_succ (n : Nat) : fillKeys (n + 1) = fillKeys n ++ [fillKey n] := by
  unfold fillKeys
  rw [List.range_succ, List.map_append]
  rfl

theorem fillEvs_succ (n : Nat) : fillEvs (n + 1) = fillEvs n ++ [fillEv n] := by
  unfold fillEvs
  rw [List.range_succ, List.map_append]
  rfl

theorem not_mem_fillKeys_of_fst_ne (x : Nat × Nat) (m : Nat) (hx : x.1 ≠ 1) :
    x ∉ fillKeys m := by
  intro hmem
  obtain ⟨j, hj, hval⟩ := List.mem_map.mp hmem
  apply hx
  rw [← hval]
  rfl

theorem fillKey_not_mem_fillKeys (n : Nat) : fillKey n ∉ fillKeys n := by
  intro hmem
  obtain ⟨j, hj, hval⟩ := List.mem_map.mp hmem
  have hjn : j = n := by
    have := congrArg Prod.snd hval
    simpa [fillKey] using this
  rw [hjn] at hj
  exact absurd (List.mem_range.mp hj) (by omega)

theorem contains_eq_false_of_not_mem (l : List (Nat × Nat)) (x : Nat × Nat)
    (h : x ∉ l) : l.contains x = false := by
  rcases hc : l.contains x with _ | _
  · rfl
  · exact absurd (List.elem_iff.mp hc) h

theorem processEvents_append (deliver : TransferEvent → Nat → Bool) (now : Nat) :
    ∀ (l1 l2 : List TransferEvent) (w : World),
      processEvents deliver now w (l1 ++ l2) =
        ((processEvents deliver now (processEvents deliver now w l1).1 l2).1,
          (processEvents deliver now w l1).2 ++
            (processEvents deliver now (processEvents deliver now w l1).1 l2).2) := by
  intro l1
  induction l1 with
  | nil => intro l2 w; rfl
  | cons ev rest ih =>
      intro l2 w
      rw [List.cons_append, processEvents_cons, processEvents_cons, ih]
      dsimp only
      rw [List.append_assoc]

theorem c1_fill_run (wA : World) (hts : wA.l.tabs = [])
    (hd : wA.l.processedTxHashesForDeduplication = [(0, 0)]) :
    ∀ n, n ≤ 1000 →
      ((processEvents delAll 0 wA (fillEvs n)).1.l.processedTxHashesForDeduplication =
        if n ≤ 999 then (0, 0) :: fillKeys n else (fillKeys 1000).drop 500) ∧
      (processEvents delAll 0 wA (fillEvs n)).1.l.tabs = [] ∧
      countDetected (0, 0) (processEvents delAll 0 wA (fillEvs n)).2 = 0 := by
  intro n
  induction n with
  | zero =>
      intro _
      refine ⟨?_, ?_, ?_⟩
      · rw [if_pos (by omega)]
        have h0 : fillEvs 0 = [] := rfl
        rw [h0]
        exact hd
      · have h0 : fillEvs 0 = [] := rfl
        rw [h0]
        exact hts
      · rfl
  | succ n ihn =>
      intro hn1
      obtain ⟨ihd0, iht, ihc⟩ := ihn (by omega)
      rw [if_pos (by omega : n ≤ 999)] at ihd0
      have hcf : (processEvents delAll 0 wA (fillEvs n)).1.l.processedTxHashesForDeduplication.contains (eventKey (fillEv n)) = false := by
        apply contains_eq_false_of_not_mem
        rw [ihd0]
        intro hmem
        rcases List.mem_cons.mp hmem with hh | hh
        · exact absurd (congrArg Prod.fst hh) (by simp [eventKey, fillEv])
        · exact fillKey_not_mem_fillKeys n hh
      have hsingle : ∀ (W : World), processEvents delAll 0 W [fillEv n] =
          ((dedupStep delAll 0 W (fillEv n)).1,
            (dedupStep delAll 0 W (fillEv n)).2 ++ []) := fun W => rfl
      rw [fillEvs_succ, processEvents_append, hsingle]
      refine ⟨?_, ?_, ?_⟩
      · dsimp only
        rw [dedupStep_dedup _ _ _ _ hcf, ihd0]
        have hkey : eventKey (fillEv n) = fillKey n := rfl
        rw [hkey]
        have hcons : ((0, 0) :: fillKeys n) ++ [fillKey n] =
            (0, 0) :: fillKeys (n + 1) := by
          rw [List.cons_append, ← fillKeys_succ]
        rw [hcons]
        by_cases hn9 : n ≤ 998
        · have hnotrim : trimDedup ((0, 0) :: fillKeys (n + 1)) =
              (0, 0) :: fillKeys (n + 1) := by
            unfold trimDedup
            rw [if_neg (by rw [List.length_cons, fillKeys_length]; omega)]
          rw [hnotrim, if_pos (by omega)]
        · have hn99 : n = 999 := by omega
          subst hn99
          rw [if_neg (by omega)]
          unfold trimDedup
          have hL : ((0, 0) :: fillKeys (999 + 1)).length = 1001 := by
            rw [List.length_cons, fillKeys_length]
          rw [hL]
          rw [if_pos (by omega)]
          have h501 : (1001 : Nat) - 500 = 500 + 1 := rfl
          rw [h501, List.drop_succ_cons]
      · dsimp only
        exact dedupStep_tabs _ _ _ _ iht
      · rw [countDetected_append, ihc]
        dsimp only
        rw [List.append_nil]
        rw [dedupStep_count _ _ _ _ hcf]
        rw [if_neg (by simp [fillEv])]

theorem processEvents_cons_fst (deliver : TransferEvent → Nat → Bool)
    (now : Nat) (w : World) (ev : TransferEvent) (rest : List TransferEvent) :
    (processEvents deliver now w (ev :: rest)).1 =
      (processEvents deliver now (dedupStep deliver now w ev).1 rest).1 := rfl

theorem processEvents_cons_snd (deliver : TransferEvent → Nat → Bool)
    (now : Nat) (w : World) (ev : TransferEvent) (rest : List TransferEvent) :
    (processEvents deliver now w (ev :: rest)).2 =
      (dedupStep deliver now w ev).2 ++
        (processEvents deliver now (dedupStep deliver now w ev).1 rest).2 := rfl

theorem processEvents_singleton_snd (deliver : TransferEvent → Nat → Bool)
    (now : Nat) (w : World) (ev : TransferEvent) :
    (processEvents deliver now w [ev]).2 = (dedupStep deliver now w ev).2 ++ [] := rfl

theorem pollForTransfers_ok_eq (w : World) (head now : Nat)
    (evs : List TransferEvent) (deliver : TransferEvent → Nat → Bool)
    (hp : (w.l.provider.isNone || !w.l.contract) = false)
    (hlt : ¬head ≤ w.l.lastProcessedBlock.getD 0) :
    pollForTransfers w (PollEnv.ok head now evs deliver) =
      (⟨(processEvents deliver now w evs).1.pool, { (processEvents deliver now w evs).1.l with lastProcessedBlock := some head }⟩,
        (processEvents deliver now w evs).2) := by
  unfold pollForTransfers
  rw [hp]
  simp only [Bool.false_eq_true, if_false]
  rw [if_neg hlt]

theorem pollForTransfers_ok_provider (w : World) (head now : Nat)
    (evs : List TransferEvent) (deliver : TransferEvent → Nat → Bool)
    (hp : (w.l.provider.isNone || !w.l.contract) = false)
    (hlt : ¬head ≤ w.l.lastProcessedBlock.getD 0) :
    (pollForTransfers w (PollEnv.ok head now evs deliver)).1.l.provider =
      (processEvents deliver now w evs).1.l.provider := by
  rw [pollForTransfers_ok_eq w head now evs deliver hp hlt]

theorem pollForTransfers_ok_contract (w : World) (head now : Nat)
    (evs : List TransferEvent) (deliver : TransferEvent → Nat → Bool)
    (hp : (w.l.provider.isNone || !w.l.contract) = false)
    (hlt : ¬head ≤ w.l.lastProcessedBlock.getD 0) :
    (pollForTransfers w (PollEnv.ok head now evs deliver)).1.l.contract =
      (processEvents deliver now w evs).1.l.contract := by
  rw [pollForTransfers_ok_eq w head now evs deliver hp hlt]

theorem pollForTransfers_ok_dedup (w : World) (head now : Nat)
    (evs : List TransferEvent) (deliver : TransferEvent → Nat → Bool)
    (hp : (w.l.provider.isNone || !w.l.contract) = false)
    (hlt : ¬head ≤ w.l.lastProcessedBlock.getD 0) :
    (pollForTransfers w (PollEnv.ok head now evs deliver)).1.l.processedTxHashesForDeduplication =
      (processEvents deliver now w evs).1.l.processedTxHashesForDeduplication := by
  rw [pollForTransfers_ok_eq w head now evs deliver hp hlt]

theorem pollForTransfers_ok_snd (w : World) (head now : Nat)
    (evs : List TransferEvent) (deliver : TransferEvent → Nat → Bool)
    (hp : (w.l.provider.isNone || !w.l.contract) = false)
    (hlt : ¬head ≤ w.l.lastProcessedBlock.getD 0) :
    (pollForTransfers w (PollEnv.ok head now evs deliver)).2 =
      (processEvents deliver now w evs).2 := by
  rw [pollForTransfers_ok_eq w head now evs deliver hp hlt]

/-- The first poll of the counterexample: range (0, 1001], which returns the
event with identity (0,0) followed by 1000 events with fresh identities. -/
def c1Poll1 : World × List Effect :=
  pollForTransfers c1Start (PollEnv.ok 1001 0 (evA :: fillEvs 1000) delAll)

/-- The listener state after the first poll with the cursor reset, as happens
when a reconnect re-fetches the block number from a lagging endpoint (the
dedup set survives the reconnect untouched). -/
def c1Reset : World :=
  ⟨c1Poll1.1.pool, { c1Poll1.1.l with lastProcessedBlock := some 0 }⟩

/-- The overlapping second poll: range (0, 1], which returns the same
(0,0)-identified event again. -/
def c1Poll2 : World × List Effect :=
  pollForTransfers c1Reset (PollEnv.ok 1 0 [evA] delAll)

theorem resetWorld_provider (w : World) (c : Option Nat) : (⟨w.pool, { w.l with lastProcessedBlock := c }⟩ : World).l.provider = w.l.provider := rfl

theorem resetWorld_contract (w : World) (c : Option Nat) : (⟨w.pool, { w.l with lastProcessedBlock := c }⟩ : World).l.contract = w.l.contract := rfl

theorem resetWorld_dedup (w : World) (c : Option Nat) : (⟨w.pool, { w.l with lastProcessedBlock := c }⟩ : World).l.processedTxHashesForDeduplication = w.l.processedTxHashesForDeduplication := rfl

theorem resetWorld_cursor (w : World) (c : Option Nat) : (⟨w.pool, { w.l with lastProcessedBlock := c }⟩ : World).l.lastProcessedBlock = c := rfl

/-- C1 counterexample: the first poll dispatches the identity (0,0) once and
then admits 1000 further fresh identities, which pushes the dedup window past
1000 entries so that it is trimmed to the newest 500, evicting (0,0); the
overlapping second poll observes the same (transactionHash, logIndex) = (0,0)
event again and dispatches it a second time — the event is NOT dispatched at
most once across overlapping polls. -/
theorem dedup_across_polls_counterexample :
    countDetected (0, 0) c1Poll1.2 = 1 ∧ countDetected (0, 0) c1Poll2.2 = 1 := by
  have hA1 : (dedupStep delAll 0 c1Start evA).1.l.processedTxHashesForDeduplication = [(0, 0)] := by decide
  have hA2 : (dedupStep delAll 0 c1Start evA).1.l.tabs = [] := by decide
  have hA3 : countDetected (0, 0) (dedupStep delAll 0 c1Start evA).2 = 1 := by decide
  obtain ⟨hf1, hf2, hf3⟩ := c1_fill_run (dedupStep delAll 0 c1Start evA).1 hA2 hA1 1000 (by omega)
  rw [if_neg (by omega)] at hf1
  obtain ⟨tS, lS, dS, hshape⟩ := processEvents_shape delAll 0 (fillEvs 1000) (dedupStep delAll 0 c1Start evA).1
  have hguard1 : (c1Start.l.provider.isNone || !c1Start.l.contract) = false := by decide
  have hlt1 : ¬(1001 : Nat) ≤ c1Start.l.lastProcessedBlock.getD 0 := by decide
  have hQprov : c1Poll1.1.l.provider = some (ProviderHandle.http "e") := by
    unfold c1Poll1
    rw [pollForTransfers_ok_provider c1Start 1001 0 (evA :: fillEvs 1000) delAll hguard1 hlt1]
    rw [processEvents_cons_fst, hshape]
    rfl
  have hQcon : c1Poll1.1.l.contract = true := by
    unfold c1Poll1
    rw [pollForTransfers_ok_contract c1Start 1001 0 (evA :: fillEvs 1000) delAll hguard1 hlt1]
    rw [processEvents_cons_fst, hshape]
    rfl
  have hQded : c1Poll1.1.l.processedTxHashesForDeduplication = (fillKeys 1000).drop 500 := by
    unfold c1Poll1
    rw [pollForTransfers_ok_dedup c1Start 1001 0 (evA :: fillEvs 1000) delAll hguard1 hlt1]
    rw [processEvents_cons_fst]
    exact hf1
  constructor
  · unfold c1Poll1
    rw [pollForTransfers_ok_snd c1Start 1001 0 (evA :: fillEvs 1000) delAll hguard1 hlt1]
    rw [processEvents_cons_snd, countDetected_append, hA3, hf3]
  · have hguard2 : (c1Reset.l.provider.isNone || !c1Reset.l.contract) = false := by
      unfold c1Reset
      rw [resetWorld_provider c1Poll1.1 (some 0), resetWorld_contract c1Poll1.1 (some 0)]
      rw [hQprov, hQcon]
      rfl
    have hlt2 : ¬(1 : Nat) ≤ c1Reset.l.lastProcessedBlock.getD 0 := by
      unfold c1Reset
      rw [resetWorld_cursor c1Poll1.1 (some 0)]
      decide
    have hcf2 : c1Reset.l.processedTxHashesForDeduplication.contains (eventKey evA) = false := by
      unfold c1Reset
      rw [resetWorld_dedup c1Poll1.1 (some 0), hQded]
      apply contains_eq_false_of_not_mem
      intro hmem
      exact not_mem_fillKeys_of_fst_ne (eventKey evA) 1000 (by decide)
        (List.drop_subset 500 (fillKeys 1000) hmem)
    unfold c1Poll2
    rw [pollForTransfers_ok_snd c1Reset 1 0 [evA] delAll hguard2 hlt2]
    rw [processEvents_singleton_snd, List.append_nil]
    rw [dedupStep_count delAll 0 c1Reset evA hcf2 (0, 0)]
    rw [if_pos (by decide)]

end RenaissNFT
